import Mathlib

/-!
# VIF unpack code generator (`pcsx2/arm64/Vif_UnpackNEON.cpp`)

The translation unit is a generator: every `xUPK_*` method appends AArch64
instructions to the assembler, `nVifGen` wraps them into leaf routines and
`VifUnpackSSE_Init` fills the handler table `nVifUpk`.

The development has three layers.

* A small model of the AArch64 state and of the instructions the generator
  emits (`Machine`, `Instr`, `exec`, `run`).
* The generator itself: each method of the source becomes a function that
  returns the list of instructions it emits, in emission order.
* Theorems about the emitted routines and about the table.
-/

namespace VifUnpackNEON

/-! ## Machine model -/

/-- A 128-bit SIMD register, seen as four 32-bit lanes; `l0` is the least
significant lane (`V4S` element 0). -/
structure V128 where
  l0 : Nat
  l1 : Nat
  l2 : Nat
  l3 : Nat
deriving DecidableEq, Repr

namespace V128

/-- The all-zero vector. -/
def zero : V128 := ⟨0, 0, 0, 0⟩

/-- `V4S` element `i`. -/
def lane (v : V128) (i : Nat) : Nat :=
  match i with
  | 0 => v.l0
  | 1 => v.l1
  | 2 => v.l2
  | _ => v.l3

/-- Replace `V4S` element `i` (elements above 3 do not exist). -/
def setLane (v : V128) (i : Nat) (x : Nat) : V128 :=
  match i with
  | 0 => { v with l0 := x }
  | 1 => { v with l1 := x }
  | 2 => { v with l2 := x }
  | 3 => { v with l3 := x }
  | _ => v

/-- `V8H` element `i`: 16-bit halfword `i` of the register. -/
def half (v : V128) (i : Nat) : Nat :=
  v.lane (i / 2) / 65536 ^ (i % 2) % 65536

/-- `V16B` element `i`: byte `i` of the register. -/
def byte (v : V128) (i : Nat) : Nat :=
  v.lane (i / 4) / 256 ^ (i % 4) % 256

/-- Lane-wise bitwise AND (`And vd.16B`). -/
def and (a b : V128) : V128 :=
  ⟨a.l0 &&& b.l0, a.l1 &&& b.l1, a.l2 &&& b.l2, a.l3 &&& b.l3⟩

/-- Lane-wise bitwise OR (`Orr vd.16B`). -/
def or (a b : V128) : V128 :=
  ⟨a.l0 ||| b.l0, a.l1 ||| b.l1, a.l2 ||| b.l2, a.l3 ||| b.l3⟩

/-- Apply `f` to each 32-bit lane. -/
def map (f : Nat → Nat) (v : V128) : V128 :=
  ⟨f v.l0, f v.l1, f v.l2, f v.l3⟩

end V128

/-- Sign extension of an 8-bit value to 16 bits. -/
def sext8to16 (b : Nat) : Nat := if b < 128 then b else b + 65280

/-- Sign extension of a 16-bit value to 32 bits. -/
def sext16to32 (h : Nat) : Nat := if h < 32768 then h else h + 4294901760

/-- Sign extension of an 8-bit value to 32 bits. -/
def sext8to32 (b : Nat) : Nat := if b < 128 then b else b + 4294967040

/-- Arithmetic shift right of a 32-bit lane by `n` bits. -/
def asr32 (x n : Nat) : Nat :=
  if x % 4294967296 < 2147483648 then x % 4294967296 / 2 ^ n
  else 4294967295 - (4294967295 - x % 4294967296) / 2 ^ n

/-- Byte-addressed memory. -/
abbrev Mem := Nat → Nat

/-- Read one byte. -/
def rd8 (m : Mem) (a : Nat) : Nat := m a % 256

/-- Read a little-endian 16-bit halfword. -/
def rd16 (m : Mem) (a : Nat) : Nat := rd8 m a + 256 * rd8 m (a + 1)

/-- Read a little-endian 32-bit word. -/
def rd32 (m : Mem) (a : Nat) : Nat :=
  rd8 m a + 256 * rd8 m (a + 1) + 65536 * rd8 m (a + 2) + 16777216 * rd8 m (a + 3)

/-- Read 16 bytes as a vector. -/
def rd128 (m : Mem) (a : Nat) : V128 :=
  ⟨rd32 m a, rd32 m (a + 4), rd32 m (a + 8), rd32 m (a + 12)⟩

/-- Write the 16 bytes of a vector at address `a`. -/
def wr128 (m : Mem) (a : Nat) (v : V128) : Mem :=
  fun p => if a ≤ p ∧ p < a + 16 then v.byte (p - a) else m p

/-- The part of the processor state the generated routines touch. -/
structure Machine where
  /-- General purpose registers `x0`..`x30`. -/
  x : Nat → Nat
  /-- SIMD registers `q0`..`q31`. -/
  q : Nat → V128
  /-- Memory. -/
  mem : Mem

namespace Machine

/-- Read a `W` register; register 31 is `wzr`. -/
def rdW (s : Machine) (n : Nat) : Nat :=
  if n = 31 then 0 else s.x n % 4294967296

/-- Write a `W` register (the upper half of the `X` register is cleared);
writes to `wzr` are discarded. -/
def setW (s : Machine) (n : Nat) (v : Nat) : Machine :=
  { s with x := fun k => if k = n ∧ n ≠ 31 then v % 4294967296 else s.x k }

/-- Write a pointer value to an `X` register. -/
def setX (s : Machine) (n : Nat) (v : Nat) : Machine :=
  { s with x := fun k => if k = n ∧ n ≠ 31 then v else s.x k }

/-- Write a SIMD register. -/
def setQ (s : Machine) (n : Nat) (v : V128) : Machine :=
  { s with q := fun k => if k = n then v else s.q k }

end Machine

/-- A base-plus-immediate-offset memory operand (`a64::MemOperand`). -/
structure MemOperand where
  base : Nat
  offset : Nat
deriving DecidableEq, Repr

/-- Effective address of a memory operand. -/
def MemOperand.addr (m : MemOperand) (s : Machine) : Nat := s.x m.base + m.offset

/-- Prefetch hints used by the generator. -/
inductive PrefetchOp where
  | PLDL1KEEP
  | PSTL1KEEP
deriving DecidableEq, Repr

/-- The instructions (and the one address-materialising helper) that the
generator emits.  SIMD and general registers are named by their number. -/
inductive Instr where
  /-- Load 128 bits: `Ldr(qt, mem)`. -/
  | LdrQ (vt : Nat) (m : MemOperand)
  /-- Load 64 bits into the low half, clearing the rest: `Ldr(vt.D(), mem)`. -/
  | LdrD (vt : Nat) (m : MemOperand)
  /-- Load 32 bits into lane 0, clearing the rest: `Ldr(vt.S(), mem)`. -/
  | LdrS (vt : Nat) (m : MemOperand)
  /-- Load a zero-extended halfword into a `W` register: `Ldrh(wt, mem)`. -/
  | Ldrh (wt : Nat) (m : MemOperand)
  /-- Store 128 bits: `Str(qt, mem)`. -/
  | StrQ (vt : Nat) (m : MemOperand)
  /-- Prefetch hint. -/
  | Prfm (op : PrefetchOp) (m : MemOperand)
  /-- Widen bytes to halfwords: `Ushll(vd.V8H(), vn.V8B(), shift)`. -/
  | Ushll8H (vd vn : Nat) (shift : Nat)
  /-- Widen halfwords to words: `Ushll(vd.V4S(), vn.V4H(), shift)`. -/
  | Ushll4S (vd vn : Nat) (shift : Nat)
  /-- Signed widen bytes to halfwords: `Sshll(vd.V8H(), vn.V8B(), shift)`. -/
  | Sshll8H (vd vn : Nat) (shift : Nat)
  /-- Signed widen halfwords to words: `Sshll(vd.V4S(), vn.V4H(), shift)`. -/
  | Sshll4S (vd vn : Nat) (shift : Nat)
  /-- Lane-wise logical shift right: `Ushr(vd.V4S(), vn.V4S(), n)`. -/
  | Ushr4S (vd vn : Nat) (n : Int)
  /-- Lane-wise arithmetic shift right: `Sshr(vd.V4S(), vn.V4S(), n)`. -/
  | Sshr4S (vd vn : Nat) (n : Int)
  /-- Lane-wise shift left: `Shl(vd.V4S(), vn.V4S(), n)`. -/
  | Shl4S (vd vn : Nat) (n : Int)
  /-- Broadcast a word element: `Dup(vd.V4S(), vn.V4S(), index)`. -/
  | Dup4S (vd vn : Nat) (index : Int)
  /-- Broadcast a doubleword element: `Dup(vd.V2D(), vn.V2D(), index)`. -/
  | Dup2D (vd vn : Nat) (index : Int)
  /-- Broadcast a `W` register: `Dup(vd.V4S(), wn)`. -/
  | Dup4SW (vd wn : Nat)
  /-- Insert a `W` register into a word element: `Ins(vd.V4S(), index, wn)`. -/
  | Ins4SW (vd : Nat) (index : Int) (wn : Nat)
  /-- Unsigned bitfield extract: `Ubfx(wd, wn, lsb, width)`. -/
  | Ubfx (wd wn : Nat) (lsb width : Nat)
  /-- Logical shift left by immediate: `Lsl(wd, wn, shift)`. -/
  | Lsl (wd wn : Nat) (shift : Nat)
  /-- Logical shift right by immediate: `Lsr(wd, wn, shift)`. -/
  | Lsr (wd wn : Nat) (shift : Nat)
  /-- Bitwise AND: `And(vd.V16B(), vn.V16B(), vm.V16B())`. -/
  | And16B (vd vn vm : Nat)
  /-- Bitwise OR: `Orr(vd.V16B(), vn.V16B(), vm.V16B())`. -/
  | Orr16B (vd vn vm : Nat)
  /-- Materialise an address: `armMoveAddressToReg(xd, addr)`. -/
  | MovAddr (xd : Nat) (addr : Nat)
  /-- Return to the caller. -/
  | Ret
deriving DecidableEq, Repr

/-- Result of `Ushll`/`Sshll` from bytes to halfwords: halfword `i` of the
result is `f` of byte `i` of the low 64 bits of the source, shifted left. -/
def widen8H (f : Nat → Nat) (shift : Nat) (v : V128) : V128 :=
  let h := fun i => f (v.byte i) * 2 ^ shift % 65536
  ⟨h 0 + 65536 * h 1, h 2 + 65536 * h 3, h 4 + 65536 * h 5, h 6 + 65536 * h 7⟩

/-- Result of `Ushll`/`Sshll` from halfwords to words: word `i` of the result
is `f` of halfword `i` of the low 64 bits of the source, shifted left. -/
def widen4S (f : Nat → Nat) (shift : Nat) (v : V128) : V128 :=
  let w := fun i => f (v.half i) * 2 ^ shift % 4294967296
  ⟨w 0, w 1, w 2, w 3⟩

/-- Execute one instruction.  `none` is an instruction the assembler cannot
encode (element index or shift amount out of range). -/
def exec : Instr → Machine → Option Machine
  | .LdrQ vt m, s => some (s.setQ vt (rd128 s.mem (m.addr s)))
  | .LdrD vt m, s =>
      some (s.setQ vt ⟨rd32 s.mem (m.addr s), rd32 s.mem (m.addr s + 4), 0, 0⟩)
  | .LdrS vt m, s => some (s.setQ vt ⟨rd32 s.mem (m.addr s), 0, 0, 0⟩)
  | .Ldrh wt m, s => some (s.setW wt (rd16 s.mem (m.addr s)))
  | .StrQ vt m, s => some { s with mem := wr128 s.mem (m.addr s) (s.q vt) }
  | .Prfm _ _, s => some s
  | .Ushll8H vd vn shift, s =>
      if shift < 8 then some (s.setQ vd (widen8H id shift (s.q vn))) else none
  | .Ushll4S vd vn shift, s =>
      if shift < 16 then some (s.setQ vd (widen4S id shift (s.q vn))) else none
  | .Sshll8H vd vn shift, s =>
      if shift < 8 then some (s.setQ vd (widen8H sext8to16 shift (s.q vn))) else none
  | .Sshll4S vd vn shift, s =>
      if shift < 16 then some (s.setQ vd (widen4S sext16to32 shift (s.q vn))) else none
  | .Ushr4S vd vn n, s =>
      if 1 ≤ n ∧ n ≤ 32 then
        some (s.setQ vd ((s.q vn).map (fun x => x % 4294967296 / 2 ^ n.toNat)))
      else none
  | .Sshr4S vd vn n, s =>
      if 1 ≤ n ∧ n ≤ 32 then
        some (s.setQ vd ((s.q vn).map (fun x => asr32 x n.toNat)))
      else none
  | .Shl4S vd vn n, s =>
      if 0 ≤ n ∧ n < 32 then
        some (s.setQ vd ((s.q vn).map (fun x => x * 2 ^ n.toNat % 4294967296)))
      else none
  | .Dup4S vd vn index, s =>
      if 0 ≤ index ∧ index < 4 then
        let e := (s.q vn).lane index.toNat
        some (s.setQ vd ⟨e, e, e, e⟩)
      else none
  | .Dup2D vd vn index, s =>
      if 0 ≤ index ∧ index < 2 then
        let lo := (s.q vn).lane (2 * index.toNat)
        let hi := (s.q vn).lane (2 * index.toNat + 1)
        some (s.setQ vd ⟨lo, hi, lo, hi⟩)
      else none
  | .Dup4SW vd wn, s =>
      let e := s.rdW wn
      some (s.setQ vd ⟨e, e, e, e⟩)
  | .Ins4SW vd index wn, s =>
      if 0 ≤ index ∧ index < 4 then
        some (s.setQ vd ((s.q vd).setLane index.toNat (s.rdW wn)))
      else none
  | .Ubfx wd wn lsb width, s =>
      if lsb < 32 ∧ 1 ≤ width ∧ lsb + width ≤ 32 then
        some (s.setW wd (s.rdW wn / 2 ^ lsb % 2 ^ width))
      else none
  | .Lsl wd wn shift, s =>
      if shift < 32 then some (s.setW wd (s.rdW wn * 2 ^ shift % 4294967296)) else none
  | .Lsr wd wn shift, s =>
      if shift < 32 then some (s.setW wd (s.rdW wn / 2 ^ shift)) else none
  | .And16B vd vn vm, s => some (s.setQ vd ((s.q vn).and (s.q vm)))
  | .Orr16B vd vn vm, s => some (s.setQ vd ((s.q vn).or (s.q vm)))
  | .MovAddr xd addr, s => some (s.setX xd addr)
  | .Ret, s => some s

/-- Execute a straight-line instruction sequence; `Ret` leaves the routine, so
nothing after it is executed. -/
def run : List Instr → Machine → Option Machine
  | [], s => some s
  | i :: rest, s => if i = .Ret then some s else (exec i s).bind (run rest)

/-! ## The generator -/

/-- Modelled from the spec: the handler signature is
`(destPointer, sourcePointer)`; `RXARG1` is the register of the first
argument (`x0`). -/
def RXARG1 : Nat := 0

/-- Modelled from the spec: the handler signature is
`(destPointer, sourcePointer)`; `RXARG2` is the register of the second
argument (`x1`). -/
def RXARG2 : Nat := 1

/-- Modelled from the spec: the assembler scratch register (`x16`), which
holds neither argument and none of the generator's work registers. -/
def RXVIXLSCRATCH : Nat := 16

/-- The zero register `wzr`. -/
def wzr : Nat := 31

/-- Member `dstIndirect`, bound by the constructor to `MemOperand(RXARG1)`. -/
def dstIndirect : MemOperand := ⟨RXARG1, 0⟩

/-- Member `srcIndirect`, bound by the constructor to `MemOperand(RXARG2)`. -/
def srcIndirect : MemOperand := ⟨RXARG2, 0⟩

/-- Member `workReg`, bound by the constructor to `q1`. -/
def workReg : Nat := 1

/-- Member `destReg`, bound by the constructor to `q0`. -/
def destReg : Nat := 0

/-- Member `workGprW`, bound by the constructor to `w4`. -/
def workGprW : Nat := 4

/-- `MemOperand(m.GetBaseRegister(), m.GetOffset() + k)`. -/
def MemOperand.plus (m : MemOperand) (k : Nat) : MemOperand := ⟨m.base, m.offset + k⟩

/-- The data members of `VifUnpackNEON_Base` that the generator reads, and
the answers of its three pure virtual predicates for the object at hand. -/
structure VifUnpackNEON_Base where
  /-- Unsigned flag. -/
  usn : Bool
  /-- Masking write enable flag. -/
  doMask : Bool
  UnpkLoopIteration : Int
  UnpkNoOfIterations : Int
  IsAligned : Int
  /-- Result of the virtual `IsWriteProtectedOp()`. -/
  IsWriteProtectedOp : Bool
  /-- Result of the virtual `IsInputMasked()`. -/
  IsInputMasked : Bool
  /-- Result of the virtual `IsUnmaskedOp()`. -/
  IsUnmaskedOp : Bool
deriving DecidableEq, Repr

namespace VifUnpackNEON_Base

/-- The store step `xMovDest`; `doMaskWrite` is the virtual masked write of
the derived class and `a64` says whether `__aarch64__` is defined. -/
def xMovDest (a64 : Bool) (g : VifUnpackNEON_Base) (doMaskWrite : Nat → List Instr) :
    List Instr :=
  if !g.IsWriteProtectedOp then
    if g.IsUnmaskedOp then
      if a64 then
        [.StrQ destReg dstIndirect, .Prfm .PSTL1KEEP (dstIndirect.plus 16)]
      else
        [.StrQ destReg dstIndirect]
    else
      doMaskWrite destReg
  else
    []

/-- Method `xShiftR`. -/
def xShiftR (g : VifUnpackNEON_Base) (regX : Nat) (n : Int) : List Instr :=
  if g.usn then [.Ushr4S regX regX n] else [.Sshr4S regX regX n]

/-- Method `xPMOVXX8`: load four bytes and widen them to words. -/
def xPMOVXX8 (a64 : Bool) (g : VifUnpackNEON_Base) (regX : Nat) : List Instr :=
  if a64 then
    [.LdrS regX srcIndirect, .Prfm .PLDL1KEEP (srcIndirect.plus 16)] ++
    (if g.usn then [.Ushll8H regX regX 0, .Ushll4S regX regX 0]
     else [.Sshll8H regX regX 0, .Sshll4S regX regX 0])
  else
    [.LdrS regX srcIndirect] ++
    (if g.usn then [.Ushll8H regX regX 0, .Ushll4S regX regX 0]
     else [.Sshll8H regX regX 0, .Sshll4S regX regX 0])

/-- Method `xPMOVXX16`: load four halfwords and widen them to words. -/
def xPMOVXX16 (a64 : Bool) (g : VifUnpackNEON_Base) (regX : Nat) : List Instr :=
  if a64 then
    [.LdrD regX srcIndirect, .Prfm .PLDL1KEEP (srcIndirect.plus 32)] ++
    (if g.usn then [.Ushll4S regX regX 0] else [.Sshll4S regX regX 0])
  else
    [.LdrD regX srcIndirect] ++
    (if g.usn then [.Ushll4S regX regX 0] else [.Sshll4S regX regX 0])

/-- The `switch (UnpkLoopIteration)` shared by the scalar unpacks: one
broadcast for the cases 0..3, nothing otherwise. -/
def dupSwitch (g : VifUnpackNEON_Base) : List Instr :=
  if g.UnpkLoopIteration = 0 then [.Dup4S destReg workReg 0]
  else if g.UnpkLoopIteration = 1 then [.Dup4S destReg workReg 1]
  else if g.UnpkLoopIteration = 2 then [.Dup4S destReg workReg 2]
  else if g.UnpkLoopIteration = 3 then [.Dup4S destReg workReg 3]
  else []

/-- Method `xUPK_S_32`. -/
def xUPK_S_32 (a64 : Bool) (g : VifUnpackNEON_Base) : List Instr :=
  if a64 then
    (if g.UnpkLoopIteration = 0 then
      [.LdrQ workReg srcIndirect, .Prfm .PLDL1KEEP (srcIndirect.plus 64)]
     else []) ++
    (if g.IsInputMasked then []
     else [.Dup4S destReg workReg g.UnpkLoopIteration])
  else
    (if g.UnpkLoopIteration = 0 then [.LdrQ workReg srcIndirect] else []) ++
    (if g.IsInputMasked then [] else dupSwitch g)

/-- Method `xUPK_S_16`. -/
def xUPK_S_16 (a64 : Bool) (g : VifUnpackNEON_Base) : List Instr :=
  (if g.UnpkLoopIteration = 0 then xPMOVXX16 a64 g workReg else []) ++
  (if g.IsInputMasked then [] else dupSwitch g)

/-- Method `xUPK_S_8`. -/
def xUPK_S_8 (a64 : Bool) (g : VifUnpackNEON_Base) : List Instr :=
  (if g.UnpkLoopIteration = 0 then xPMOVXX8 a64 g workReg else []) ++
  (if g.IsInputMasked then [] else dupSwitch g)

/-- Method `xUPK_V2_32`. -/
def xUPK_V2_32 (g : VifUnpackNEON_Base) : List Instr :=
  if g.UnpkLoopIteration = 0 then
    [.LdrQ workReg srcIndirect] ++
    (if g.IsInputMasked then []
     else
      [.Dup2D destReg workReg 0] ++
      (if g.IsAligned ≠ 0 then [.Ins4SW destReg 3 wzr] else []))
  else
    (if g.IsInputMasked then []
     else
      [.Dup2D destReg workReg 1] ++
      (if g.IsAligned ≠ 0 then [.Ins4SW destReg 3 wzr] else []))

/-- Method `xUPK_V2_16`. -/
def xUPK_V2_16 (a64 : Bool) (g : VifUnpackNEON_Base) : List Instr :=
  if g.UnpkLoopIteration = 0 then
    xPMOVXX16 a64 g workReg ++
    (if g.IsInputMasked then [] else [.Dup2D destReg workReg 0])
  else
    (if g.IsInputMasked then [] else [.Dup2D destReg workReg 1])

/-- Method `xUPK_V2_8`. -/
def xUPK_V2_8 (a64 : Bool) (g : VifUnpackNEON_Base) : List Instr :=
  if g.UnpkLoopIteration = 0 then
    xPMOVXX8 a64 g workReg ++
    (if g.IsInputMasked then [] else [.Dup2D destReg workReg 0])
  else
    (if g.IsInputMasked then [] else [.Dup2D destReg workReg 1])

/-- Method `xUPK_V3_32`. -/
def xUPK_V3_32 (g : VifUnpackNEON_Base) : List Instr :=
  if g.IsInputMasked then []
  else
    [.LdrQ destReg srcIndirect] ++
    (if g.UnpkLoopIteration ≠ g.IsAligned then [.Ins4SW destReg 3 wzr] else [])

/-- The local `result` of `xUPK_V3_16`:
`((UnpkLoopIteration / 4) + 1 + (4 - IsAligned)) & 0x3` in C arithmetic
(division truncates towards zero, `&` acts on two's complement). -/
def V3_16_result (g : VifUnpackNEON_Base) : Int :=
  Int.land (Int.tdiv g.UnpkLoopIteration 4 + 1 + (4 - g.IsAligned)) 3

/-- Method `xUPK_V3_16`. -/
def xUPK_V3_16 (a64 : Bool) (g : VifUnpackNEON_Base) : List Instr :=
  if g.IsInputMasked then []
  else
    xPMOVXX16 a64 g destReg ++
    (if Int.land g.UnpkLoopIteration 1 = 0 ∧ V3_16_result g = 0 then
      [.Ins4SW destReg 3 wzr]
     else [])

/-- Method `xUPK_V3_8`. -/
def xUPK_V3_8 (a64 : Bool) (g : VifUnpackNEON_Base) : List Instr :=
  if g.IsInputMasked then []
  else
    xPMOVXX8 a64 g destReg ++
    (if g.UnpkLoopIteration ≠ g.IsAligned then [.Ins4SW destReg 3 wzr] else [])

/-- Method `xUPK_V4_32`. -/
def xUPK_V4_32 (a64 : Bool) (g : VifUnpackNEON_Base) : List Instr :=
  if g.IsInputMasked then []
  else if a64 then
    [.Prfm .PLDL1KEEP (srcIndirect.plus 64), .LdrQ destReg srcIndirect]
  else
    [.LdrQ destReg srcIndirect]

/-- Method `xUPK_V4_16`. -/
def xUPK_V4_16 (a64 : Bool) (g : VifUnpackNEON_Base) : List Instr :=
  if g.IsInputMasked then []
  else if a64 then
    [.LdrD destReg srcIndirect, .Prfm .PLDL1KEEP (srcIndirect.plus 32)] ++
    (if g.usn then [.Ushll4S destReg destReg 0] else [.Sshll4S destReg destReg 0])
  else
    xPMOVXX16 a64 g destReg

/-- Method `xUPK_V4_8`. -/
def xUPK_V4_8 (a64 : Bool) (g : VifUnpackNEON_Base) : List Instr :=
  if g.IsInputMasked then []
  else if a64 then
    [.LdrS destReg srcIndirect, .Prfm .PLDL1KEEP (srcIndirect.plus 16)] ++
    (if g.usn then [.Ushll8H destReg destReg 0, .Ushll4S destReg destReg 0]
     else [.Sshll8H destReg destReg 0, .Sshll4S destReg destReg 0])
  else
    xPMOVXX8 a64 g destReg

/-- Method `xUPK_V4_5`: the bitfield-extract sequence when `__aarch64__` is
defined, the shift sequence otherwise. -/
def xUPK_V4_5 (a64 : Bool) (g : VifUnpackNEON_Base) : List Instr :=
  if g.IsInputMasked then []
  else if a64 then
    let workGprW2 : Nat := 5
    [ .Ldrh workGprW srcIndirect,
      .Ubfx workGprW workGprW 0 5,
      .Ldrh workGprW2 srcIndirect,
      .Lsl workGprW workGprW 3,
      .Ubfx workGprW2 workGprW2 5 5,
      .Dup4SW destReg workGprW,
      .Lsl workGprW2 workGprW2 3,
      .Ins4SW destReg 1 workGprW2,
      .Ldrh workGprW srcIndirect,
      .Ubfx workGprW2 workGprW 10 5,
      .Lsl workGprW2 workGprW2 3,
      .Ins4SW destReg 2 workGprW2,
      .Ubfx workGprW workGprW 15 1,
      .Lsl workGprW workGprW 7,
      .Ins4SW destReg 3 workGprW ]
  else
    [ .Ldrh workGprW srcIndirect,
      .Lsl workGprW workGprW 3,
      .Dup4SW destReg workGprW,
      .Lsr workGprW workGprW 8,
      .Lsl workGprW workGprW 3,
      .Ins4SW destReg 1 workGprW,
      .Lsr workGprW workGprW 8,
      .Lsl workGprW workGprW 3,
      .Ins4SW destReg 2 workGprW,
      .Lsr workGprW workGprW 8,
      .Lsl workGprW workGprW 7,
      .Ins4SW destReg 3 workGprW,
      .Shl4S destReg destReg 24,
      .Ushr4S destReg destReg 24 ]

/-- Method `xUnpack`: the instructions emitted for format `upknum`. -/
def xUnpack (a64 : Bool) (g : VifUnpackNEON_Base) (upknum : Int) : List Instr :=
  if upknum = 0 then xUPK_S_32 a64 g
  else if upknum = 1 then xUPK_S_16 a64 g
  else if upknum = 2 then xUPK_S_8 a64 g
  else if upknum = 4 then xUPK_V2_32 g
  else if upknum = 5 then xUPK_V2_16 a64 g
  else if upknum = 6 then xUPK_V2_8 a64 g
  else if upknum = 8 then xUPK_V3_32 g
  else if upknum = 9 then xUPK_V3_16 a64 g
  else if upknum = 10 then xUPK_V3_8 a64 g
  else if upknum = 12 then xUPK_V4_32 a64 g
  else if upknum = 13 then xUPK_V4_16 a64 g
  else if upknum = 14 then xUPK_V4_8 a64 g
  else if upknum = 15 then xUPK_V4_5 a64 g
  else []

/-- The console output of `xUnpack`: the cases 3, 7 and 11 log a warning. -/
def xUnpackWarning (upknum : Int) : List String :=
  if upknum = 3 ∨ upknum = 7 ∨ upknum = 11 then ["Vpu/Vif: Invalid Unpack"] else []

end VifUnpackNEON_Base

/-- Modelled from the spec: the mask table `nVifMask` holds, for each of the
three masks `r` (AND-source, AND-dest, OR-override) and each cycle phase
`k` in 0..3, one 128-bit constant; this is the byte offset of
`nVifMask[r][k]` from the start of the table. -/
def maskOffset (r k : Nat) : Nat := (r * 4 + k) * 16

/-- The interpreter-side generator `VifUnpackNEON_Simple`.  Cycle phases index
the mask table, so `curCycle` is a natural number. -/
structure VifUnpackNEON_Simple extends VifUnpackNEON_Base where
  curCycle : Nat
deriving DecidableEq, Repr

namespace VifUnpackNEON_Simple

/-- Modelled from the spec: the override of `IsWriteProtectedOp()`, declared
in the header; the simple generator is never write-protected. -/
@[simp]
def simpleIsWriteProtectedOp : Bool := false

/-- Modelled from the spec: the override of `IsInputMasked()`, declared in the
header; the simple generator is never input-masked. -/
@[simp]
def simpleIsInputMasked : Bool := false

/-- Modelled from the spec: the override of `IsUnmaskedOp()`, declared in the
header; the simple generator is unmasked exactly when masking is disabled. -/
@[simp]
def simpleIsUnmaskedOp (doMask : Bool) : Bool := !doMask

/-- The constructor `VifUnpackNEON_Simple(usn_, domask_, curCycle_)`, run
after the base constructor, which zeroes `UnpkLoopIteration`,
`UnpkNoOfIterations` and `IsAligned`; the assignment `IsAligned = true`
stores 1. -/
def ctor (usn_ domask_ : Bool) (curCycle_ : Nat) : VifUnpackNEON_Simple :=
  { usn := usn_
    doMask := domask_
    UnpkLoopIteration := 0
    UnpkNoOfIterations := 0
    IsAligned := 1
    IsWriteProtectedOp := simpleIsWriteProtectedOp
    IsInputMasked := simpleIsInputMasked
    IsUnmaskedOp := simpleIsUnmaskedOp domask_
    curCycle := curCycle_ }

/-- Method `doMaskWrite`; `nVifMask` is the address of the mask table. -/
def doMaskWrite (nVifMask : Nat) (g : VifUnpackNEON_Simple) (regX : Nat) : List Instr :=
  let offX := min g.curCycle 3
  [ .Prfm .PLDL1KEEP dstIndirect,
    .LdrQ 7 dstIndirect,
    .MovAddr RXVIXLSCRATCH nVifMask,
    .LdrQ 29 ⟨RXVIXLSCRATCH, maskOffset 0 offX⟩,
    .LdrQ 30 ⟨RXVIXLSCRATCH, maskOffset 1 offX⟩,
    .LdrQ 31 ⟨RXVIXLSCRATCH, maskOffset 2 offX⟩,
    .And16B regX regX 29,
    .And16B 7 7 30,
    .Orr16B regX regX 31,
    .Orr16B regX regX 7,
    .StrQ regX dstIndirect,
    .Prfm .PSTL1KEEP (dstIndirect.plus 16) ]

/-- The inherited `xMovDest`, with the virtual call bound to this class. -/
def xMovDest (a64 : Bool) (nVifMask : Nat) (g : VifUnpackNEON_Simple) : List Instr :=
  g.toVifUnpackNEON_Base.xMovDest a64 (g.doMaskWrite nVifMask)

end VifUnpackNEON_Simple

/-! ## The table builder -/

/-- What the translation unit takes from its surroundings. -/
structure Build where
  /-- Whether `__aarch64__` is defined. -/
  a64 : Bool
  /-- Address of the mask table `nVifMask`. -/
  nVifMask : Nat
  /-- The element-size table `nVifT`. -/
  nVifT : Nat → Nat
  /-- Start of the code region, `SysMemory::GetVIFUnpackRec()`. -/
  recStart : Nat
  /-- End of the code region, `SysMemory::GetVIFUnpackRecEnd()`. -/
  recEnd : Nat
  /-- Number of bytes the assembler produces for a block. -/
  codeSize : List Instr → Nat

/-- Observable steps of the build pass, in program order. -/
inductive Event where
  | devConWriteLn
  | beginCodeWrite
  | armSetAsmPtr (ptr capacity : Nat)
  | nVifGenCall (usn mask curCycle : Nat)
  | armStartBlock (entry : Nat)
  | emit (i : Instr)
  | armEndBlock
  | perfRegister (start size : Nat)
  | endCodeWrite
deriving DecidableEq, Repr

/-- State of the build pass. -/
structure RecState where
  /-- The handler table `nVifUpk`; 0 is the null pointer. -/
  nVifUpk : Nat → Nat
  /-- The write cursor of the code region. -/
  armAsmPtr : Nat
  /-- The blocks written so far: entry point and instructions. -/
  blocks : List (Nat × List Instr)
  /-- The steps performed so far. -/
  trace : List Event

/-- Assignment to one table slot. -/
def setEntry (t : Nat → Nat) (idx v : Nat) : Nat → Nat :=
  fun k => if k = idx then v else t k

/-- The index expression of `nVifGen`. -/
def nVifIndex (usn mask i curCycle : Nat) : Nat :=
  ((usn * 2 * 16 + mask * 16 + i) * 4) + curCycle

/-- The instructions `nVifGen` emits between `armStartBlock` and
`armEndBlock` for format `i`. -/
def nVifGenBlock (B : Build) (vpugen : VifUnpackNEON_Simple) (i : Nat) : List Instr :=
  vpugen.toVifUnpackNEON_Base.xUnpack B.a64 i ++ vpugen.xMovDest B.a64 B.nVifMask ++ [.Ret]

/-- Modelled from the spec: `armStartBlock()` begins a block at the write
cursor of the code region and returns it as the entry point. -/
@[simp]
def armStartBlock (st : RecState) : Nat := st.armAsmPtr

/-- Modelled from the spec: `armEndBlock()` appends the emitted bytes to the
code region, which moves the write cursor past them. -/
@[simp]
def armEndBlock (B : Build) (entry : Nat) (code : List Instr) : Nat :=
  entry + B.codeSize code

/-- One iteration of the loop of `nVifGen`. -/
def nVifGenStep (B : Build) (usn mask curCycle : Nat) (vpugen : VifUnpackNEON_Simple)
    (st : RecState) (i : Nat) : RecState :=
  let idx := nVifIndex usn mask i curCycle
  let st1 := { st with nVifUpk := setEntry st.nVifUpk idx 0 }
  if B.nVifT i = 0 then
    st1
  else
    let entry := armStartBlock st1
    let code := nVifGenBlock B vpugen i
    { nVifUpk := setEntry st1.nVifUpk idx entry
      armAsmPtr := armEndBlock B entry code
      blocks := st1.blocks ++ [(entry, code)]
      trace := st1.trace ++ [.armStartBlock entry] ++ code.map .emit ++ [.armEndBlock] }

/-- Function `nVifGen`. -/
def nVifGen (B : Build) (usn mask curCycle : Nat) (st : RecState) : RecState :=
  let vpugen := VifUnpackNEON_Simple.ctor (usn != 0) (mask != 0) curCycle
  (List.range 16).foldl (nVifGenStep B usn mask curCycle vpugen)
    { st with trace := st.trace ++ [.nVifGenCall usn mask curCycle] }

/-- Function `VifUnpackSSE_Init`. -/
def VifUnpackSSE_Init (B : Build) (st : RecState) : RecState :=
  let st1 : RecState :=
    { st with
      armAsmPtr := B.recStart
      trace := st.trace ++
        [.devConWriteLn, .beginCodeWrite, .armSetAsmPtr B.recStart (B.recEnd - B.recStart)] }
  let st2 :=
    (List.range 2).foldl
      (fun s a =>
        (List.range 2).foldl
          (fun s b => (List.range 4).foldl (fun s c => nVifGen B a b c s) s)
          s)
      st1
  { st2 with
    trace := st2.trace ++
      [.perfRegister B.recStart (st2.armAsmPtr - B.recStart), .endCodeWrite] }

/-! ## Vocabulary of the statements -/

/-- Whether an instruction reads memory. -/
def Instr.isLoad : Instr → Bool
  | .LdrQ _ _ => true
  | .LdrD _ _ => true
  | .LdrS _ _ => true
  | .Ldrh _ _ => true
  | _ => false

/-- The instruction that zeroes lane 3 of the destination register. -/
def zeroLane3 : Instr := .Ins4SW destReg 3 wzr

/-- A 16-bit element extended to 32 bits: zero-extended when `usn` holds,
sign-extended otherwise. -/
def ext16 (usn : Bool) (h : Nat) : Nat := if usn then h else sext16to32 h

/-- An 8-bit element extended to 32 bits: zero-extended when `usn` holds,
sign-extended otherwise. -/
def ext8 (usn : Bool) (b : Nat) : Nat := if usn then b else sext8to32 b

/-- The four 16-bit elements at address `a`, each extended to 32 bits. -/
def src16x4 (usn : Bool) (m : Mem) (a : Nat) : V128 :=
  ⟨ext16 usn (rd16 m a), ext16 usn (rd16 m (a + 2)), ext16 usn (rd16 m (a + 4)),
    ext16 usn (rd16 m (a + 6))⟩

/-- The four bytes at address `a`, each extended to 32 bits. -/
def src8x4 (usn : Bool) (m : Mem) (a : Nat) : V128 :=
  ⟨ext8 usn (rd8 m a), ext8 usn (rd8 m (a + 1)), ext8 usn (rd8 m (a + 2)),
    ext8 usn (rd8 m (a + 3))⟩

/-- Whether an instruction reads memory through base register `base`. -/
def Instr.isLoadFrom (base : Nat) : Instr → Bool
  | .LdrQ _ m => m.base == base
  | .LdrD _ m => m.base == base
  | .LdrS _ m => m.base == base
  | .Ldrh _ m => m.base == base
  | _ => false

/-- The outcome of a 2-lane unpack at iteration 0: the code loads from the
source pointer, the work register receives `loaded` and the destination
register its low half twice, lane 3 zeroed when `zero3` holds. -/
def V2First (code : List Instr) (loaded : V128) (zero3 : Bool) (s : Machine) : Prop :=
  (∃ i ∈ code, i.isLoadFrom RXARG2 = true) ∧
  ∃ s', run code s = some s' ∧ s'.q workReg = loaded ∧
    s'.q destReg = ⟨loaded.l0, loaded.l1, loaded.l0, if zero3 then 0 else loaded.l1⟩

/-- The outcome of a 2-lane unpack at a later iteration: the code reads no
memory, the work register `[v0, v1, v2, v3]` is kept and the destination
register receives its high half twice, lane 3 zeroed when `zero3` holds. -/
def V2Second (code : List Instr) (zero3 : Bool) (s : Machine) : Prop :=
  (∀ i ∈ code, i.isLoad = false) ∧
  ∃ s', run code s = some s' ∧ s'.q workReg = s.q workReg ∧
    s'.q destReg =
      ⟨(s.q workReg).l2, (s.q workReg).l3, (s.q workReg).l2,
        if zero3 then 0 else (s.q workReg).l3⟩

/-- The null-ness of slot `k` agrees with the element-size table. -/
def SlotOK (B : Build) (st : RecState) (k : Nat) : Prop :=
  st.nVifUpk k = 0 ↔ B.nVifT (k / 4 % 16) = 0

/-- The sixteen `(usn, mask, curCycle)` triples in the order of the loops of
`VifUnpackSSE_Init`. -/
def initCalls : List (Nat × Nat × Nat) :=
  [(0, 0, 0), (0, 0, 1), (0, 0, 2), (0, 0, 3), (0, 1, 0), (0, 1, 1), (0, 1, 2), (0, 1, 3),
   (1, 0, 0), (1, 0, 1), (1, 0, 2), (1, 0, 3), (1, 1, 0), (1, 1, 1), (1, 1, 2), (1, 1, 3)]

/-- The outcome of a scalar unpack at iteration `k`: the code contains a load
from the source pointer, and a load at all, exactly when `k = 0`, in which
case the work register receives `loaded` and is otherwise kept, and the
destination register holds lane `k` of the work register in all four lanes. -/
def ScalarOutcome (code : List Instr) (loaded : V128) (k : Nat) (s : Machine) : Prop :=
  ((∃ i ∈ code, i.isLoadFrom RXARG2 = true) ↔ k = 0) ∧
  ((∃ i ∈ code, i.isLoad = true) ↔ k = 0) ∧
  ∃ s', run code s = some s' ∧
    s'.q workReg = (if k = 0 then loaded else s.q workReg) ∧
    s'.q destReg =
      ⟨(s'.q workReg).lane k, (s'.q workReg).lane k, (s'.q workReg).lane k,
        (s'.q workReg).lane k⟩

/-- Whether an instruction transfers control (branch, call or return); `Ret`
is the only such instruction among those the generator emits. -/
def Instr.isBranch : Instr → Bool
  | .Ret => true
  | _ => false

/-- Whether a step of the build pass belongs to the emission of a block. -/
def Event.isBlockEvent : Event → Bool
  | .armStartBlock _ => true
  | .emit _ => true
  | .armEndBlock => true
  | _ => false

/-- Whether a step of the build pass is the entry into `nVifGen`. -/
def Event.isCall : Event → Bool
  | .nVifGenCall _ _ _ => true
  | _ => false

/-- Whether a step of the build pass emits an instruction. -/
def Event.isEmit : Event → Bool
  | .emit _ => true
  | _ => false

/-- The table slots assigned by the loop nest of `VifUnpackSSE_Init` and
`nVifGen`, one per iteration, in program order. -/
def initSlots : List Nat :=
  initCalls.flatMap (fun t => (List.range 16).map (fun i => nVifIndex t.1 t.2.1 i t.2.2))

/-! ## Witness data -/

/-- A generator state that is not input-masked, with iteration index `it`
and alignment marker `al`. -/
def sampleBase (usn : Bool) (it al : Int) : VifUnpackNEON_Base :=
  { usn := usn
    doMask := false
    UnpkLoopIteration := it
    UnpkNoOfIterations := 0
    IsAligned := al
    IsWriteProtectedOp := false
    IsInputMasked := false
    IsUnmaskedOp := true }

/-- A machine state: destination pointer 64, source pointer 128, the source
bytes `0xFF, 0x81, 0x82, 0x83, ...` from address 128 on, and all vector
registers cleared. -/
def sampleMachine : Machine :=
  { x := fun r => if r = 0 then 64 else if r = 1 then 128 else 0
    q := fun _ => V128.zero
    mem := fun a => if a = 128 then 255 else if 128 < a ∧ a < 160 then a else 7 }

/-- An element-size table (bytes per source vector of each format) that is
zero exactly at the reserved ids 3, 7 and 11. -/
def sampleT (i : Nat) : Nat :=
  [4, 2, 1, 0, 8, 4, 2, 0, 12, 6, 3, 0, 16, 8, 4, 2].getD i 0

/-- A build environment: `__aarch64__` defined, the mask table at 4096, the
code region at 65536 and four bytes per emitted instruction. -/
def sampleBuild : Build :=
  { a64 := true
    nVifMask := 4096
    nVifT := sampleT
    recStart := 65536
    recEnd := 131072
    codeSize := fun l => 4 * l.length }

/-- The build state before the pass: an all-null table and no code. -/
def sampleRec : RecState :=
  { nVifUpk := fun _ => 0
    armAsmPtr := 0
    blocks := []
    trace := [] }

/-! ## Basic facts about the machine model -/

theorem rd8_lt (m : Mem) (a : Nat) : rd8 m a < 256 := by
  unfold rd8; omega

theorem rd16_lt (m : Mem) (a : Nat) : rd16 m a < 65536 := by
  have h0 := rd8_lt m a
  have h1 := rd8_lt m (a + 1)
  unfold rd16; omega

theorem and_31 (x : Nat) : x &&& 31 = x % 32 :=
  Nat.and_pow_two_sub_one_eq_mod x 5

theorem wr128_inside (m : Mem) (a : Nat) (v : V128) (j : Nat) (hj : j < 16) :
    wr128 m a v (a + j) = v.byte j := by
  simp [wr128, hj]

theorem wr128_outside (m : Mem) (a : Nat) (v : V128) (p : Nat)
    (hp : ¬ (a ≤ p ∧ p < a + 16)) : wr128 m a v p = m p := by
  simp only [wr128, if_neg hp]

theorem lor_right_comm (a b c : Nat) : a ||| b ||| c = a ||| c ||| b := by
  rw [Nat.lor_assoc, Nat.lor_comm b c, ← Nat.lor_assoc]

theorem V128.or_right_comm (a b c : V128) : (a.or b).or c = (a.or c).or b := by
  simp only [V128.or, V128.mk.injEq]
  exact ⟨lor_right_comm _ _ _, lor_right_comm _ _ _, lor_right_comm _ _ _,
    lor_right_comm _ _ _⟩

/-! ## Running emitted code -/

@[simp]
theorem Machine.setQ_q (s : Machine) (n : Nat) (v : V128) (k : Nat) :
    (s.setQ n v).q k = if k = n then v else s.q k := rfl
@[simp]
theorem Machine.setQ_x (s : Machine) (n : Nat) (v : V128) : (s.setQ n v).x = s.x := rfl
@[simp]
theorem Machine.setQ_mem (s : Machine) (n : Nat) (v : V128) :
    (s.setQ n v).mem = s.mem := rfl

@[simp]
theorem Machine.setQ_setQ (s : Machine) (n : Nat) (a b : V128) :
    (s.setQ n a).setQ n b = s.setQ n b := by
  simp only [Machine.setQ, Machine.mk.injEq, true_and, and_true]
  funext k
  split <;> rfl

@[simp]
theorem Machine.setW_q (s : Machine) (n v : Nat) : (s.setW n v).q = s.q := rfl
@[simp]
theorem Machine.setW_mem (s : Machine) (n v : Nat) : (s.setW n v).mem = s.mem := rfl
@[simp]
theorem Machine.setW_x (s : Machine) (n v k : Nat) :
    (s.setW n v).x k = if k = n ∧ n ≠ 31 then v % 4294967296 else s.x k := rfl

theorem run_append (a b : List Instr) (s : Machine) (h : Instr.Ret ∉ a) :
    run (a ++ b) s = (run a s).bind (run b) := by
  induction a generalizing s with
  | nil => simp [run]
  | cons i rest ih =>
    have hi : i ≠ Instr.Ret := fun e => h (by simp [e])
    have hr : Instr.Ret ∉ rest := fun e => h (by simp [e])
    simp only [List.cons_append, run, if_neg hi]
    cases exec i s with
    | none => rfl
    | some s1 => simpa using ih s1 hr

theorem rd32_half_lo (m : Mem) (a : Nat) : rd32 m a % 65536 = rd16 m a := by
  have h0 := rd8_lt m a
  have h1 := rd8_lt m (a + 1)
  have h2 := rd8_lt m (a + 2)
  have h3 := rd8_lt m (a + 3)
  unfold rd32 rd16; omega

theorem rd32_half_hi (m : Mem) (a : Nat) : rd32 m a / 65536 % 65536 = rd16 m (a + 2) := by
  have h0 := rd8_lt m a
  have h1 := rd8_lt m (a + 1)
  have h2 := rd8_lt m (a + 2)
  have h3 := rd8_lt m (a + 3)
  unfold rd32 rd16; rw [show a + 2 + 1 = a + 3 from rfl]; omega

theorem ext16_lt (usn : Bool) (h : Nat) (hh : h < 65536) : ext16 usn h < 4294967296 := by
  unfold ext16 sext16to32; split
  · omega
  · split <;> omega

theorem ext8_lt (usn : Bool) (b : Nat) (hb : b < 256) : ext8 usn b < 4294967296 := by
  unfold ext8 sext8to32; split
  · omega
  · split <;> omega

/-- Widening the four loaded halfwords. -/
theorem widen4S_rd (usn : Bool) (m : Mem) (a : Nat) :
    widen4S (if usn then id else sext16to32) 0 ⟨rd32 m a, rd32 m (a + 4), 0, 0⟩ =
      src16x4 usn m a := by
  have e0 := ext16_lt usn _ (rd16_lt m a)
  have e1 := ext16_lt usn _ (rd16_lt m (a + 2))
  have e2 := ext16_lt usn _ (rd16_lt m (a + 4))
  have e3 := ext16_lt usn _ (rd16_lt m (a + 6))
  have h : ∀ x, (if usn then id else sext16to32) x = ext16 usn x := by
    intro x; cases usn <;> rfl
  simp only [widen4S, V128.half, V128.lane, h, src16x4, V128.mk.injEq]
  norm_num [rd32_half_lo, rd32_half_hi, Nat.add_assoc]
  exact ⟨e0, e1, e2, e3⟩

theorem run_xPMOVXX16 (a64 : Bool) (g : VifUnpackNEON_Base) (r : Nat) (s : Machine) :
    run (g.xPMOVXX16 a64 r) s = some (s.setQ r (src16x4 g.usn s.mem (srcIndirect.addr s))) := by
  rw [← widen4S_rd]
  cases a64 <;> cases hu : g.usn <;>
    simp [VifUnpackNEON_Base.xPMOVXX16, hu, run, exec, srcIndirect, MemOperand.addr, RXARG2]


theorem sext_two_stage (b : Nat) (hb : b < 256) :
    sext16to32 (sext8to16 b % 65536) % 4294967296 = sext8to32 b := by
  unfold sext16to32 sext8to16 sext8to32
  split <;> split <;> omega

theorem rd32_byte0 (m : Mem) (a : Nat) : rd32 m a % 256 = rd8 m a := by
  have h0 := rd8_lt m a
  unfold rd32; omega

theorem rd32_byte1 (m : Mem) (a : Nat) : rd32 m a / 256 % 256 = rd8 m (a + 1) := by
  have h0 := rd8_lt m a
  have h1 := rd8_lt m (a + 1)
  unfold rd32; omega

theorem rd32_byte2 (m : Mem) (a : Nat) : rd32 m a / 65536 % 256 = rd8 m (a + 2) := by
  have h0 := rd8_lt m a
  have h1 := rd8_lt m (a + 1)
  have h2 := rd8_lt m (a + 2)
  unfold rd32; omega

theorem rd32_byte3 (m : Mem) (a : Nat) : rd32 m a / 16777216 % 256 = rd8 m (a + 3) := by
  have h0 := rd8_lt m a
  have h1 := rd8_lt m (a + 1)
  have h2 := rd8_lt m (a + 2)
  have h3 := rd8_lt m (a + 3)
  unfold rd32; omega

theorem widen_bytes_unsigned (m : Mem) (a : Nat) :
    widen4S id 0 (widen8H id 0 ⟨rd32 m a, 0, 0, 0⟩) = src8x4 true m a := by
  have h0 := rd8_lt m a
  have h1 := rd8_lt m (a + 1)
  have h2 := rd8_lt m (a + 2)
  have h3 := rd8_lt m (a + 3)
  simp only [widen4S, widen8H, V128.half, V128.byte, V128.lane, src8x4, ext8, V128.mk.injEq]
  norm_num [rd32_byte0, rd32_byte1, rd32_byte2, rd32_byte3]
  refine ⟨?_, ?_, ?_, ?_⟩ <;> omega

theorem widen_bytes_signed (m : Mem) (a : Nat) :
    widen4S sext16to32 0 (widen8H sext8to16 0 ⟨rd32 m a, 0, 0, 0⟩) = src8x4 false m a := by
  have h0 := rd8_lt m a
  have h1 := rd8_lt m (a + 1)
  have h2 := rd8_lt m (a + 2)
  have h3 := rd8_lt m (a + 3)
  have s0 := sext_two_stage _ h0
  have s1 := sext_two_stage _ h1
  have s2 := sext_two_stage _ h2
  have s3 := sext_two_stage _ h3
  simp only [widen4S, widen8H, V128.half, V128.byte, V128.lane, src8x4, ext8, V128.mk.injEq]
  norm_num [rd32_byte0, rd32_byte1, rd32_byte2, rd32_byte3]
  have p : ∀ x y : Nat, (x % 65536 + 65536 * (y % 65536)) / 65536 % 65536 = y % 65536 := by
    intro x y; omega
  simp only [p]
  exact ⟨s0, s1, s2, s3⟩

theorem run_xPMOVXX8 (a64 : Bool) (g : VifUnpackNEON_Base) (r : Nat) (s : Machine) :
    run (g.xPMOVXX8 a64 r) s = some (s.setQ r (src8x4 g.usn s.mem (srcIndirect.addr s))) := by
  cases a64 <;> cases hu : g.usn <;>
    simp [VifUnpackNEON_Base.xPMOVXX8, hu, run, exec, srcIndirect, MemOperand.addr, RXARG2,
        widen_bytes_unsigned,
      widen_bytes_signed]

/-! ## Packed colour format -/

theorem xUPK_V4_5_run (a64 : Bool) (g : VifUnpackNEON_Base) (hIn : g.IsInputMasked = false)
    (s : Machine) (w : Nat) (hw : rd16 s.mem (srcIndirect.addr s) = w) :
    ∃ s', run (g.xUPK_V4_5 a64) s = some s' ∧
      s'.q destReg =
        ⟨(w &&& 31) * 8, ((w >>> 5) &&& 31) * 8, ((w >>> 10) &&& 31) * 8, (w >>> 15) * 128⟩ := by
  have hlt : w < 65536 := hw ▸ rd16_lt _ _
  simp only [srcIndirect, MemOperand.addr, RXARG2, Nat.add_zero] at hw
  cases a64
  all_goals
    simp [VifUnpackNEON_Base.xUPK_V4_5, hIn, run, exec, Machine.setW, Machine.setQ,
      Machine.rdW, workGprW, destReg, srcIndirect, MemOperand.addr, RXARG2, V128.setLane,
      V128.map, hw, and_31, Nat.shiftRight_eq_div_pow]
    refine ⟨?_, ?_, ?_, ?_⟩
    all_goals omega

/-- C1: for every 16-bit source word `w` at the source pointer, the routine
emitted by `xUPK_V4_5` (either instruction sequence) runs to completion and
leaves `[(w & 31) * 8, ((w >> 5) & 31) * 8, ((w >> 10) & 31) * 8, (w >> 15) * 128]`
in the destination register; `0x0000` gives `[0,0,0,0]`, `0xFFFF` gives
`[248,248,248,128]` and `0x8000` gives `[0,0,0,128]`. -/
theorem xUPK_V4_5_lanes (a64 : Bool) (g : VifUnpackNEON_Base)
    (hIn : g.IsInputMasked = false) (s : Machine) (w : Nat)
    (hw : rd16 s.mem (srcIndirect.addr s) = w) :
    ∃ s', run (g.xUPK_V4_5 a64) s = some s' ∧
      s'.q destReg =
        ⟨(w &&& 31) * 8, ((w >>> 5) &&& 31) * 8, ((w >>> 10) &&& 31) * 8, (w >>> 15) * 128⟩ ∧
      (w = 0x0000 → s'.q destReg = ⟨0, 0, 0, 0⟩) ∧
      (w = 0xFFFF → s'.q destReg = ⟨248, 248, 248, 128⟩) ∧
      (w = 0x8000 → s'.q destReg = ⟨0, 0, 0, 128⟩) := by
  obtain ⟨s', hrun, hq⟩ := xUPK_V4_5_run a64 g hIn s w hw
  refine ⟨s', hrun, hq, ?_, ?_, ?_⟩
  all_goals
    intro h
    rw [hq, h]
    decide

/-- Witness for C1: the sample state holds the source word `0x81FF`. -/
theorem xUPK_V4_5_lanes_witness :
    (sampleBase false 0 1).IsInputMasked = false ∧
    rd16 sampleMachine.mem (srcIndirect.addr sampleMachine) = 0x81FF ∧
    ∃ s', run ((sampleBase false 0 1).xUPK_V4_5 true) sampleMachine = some s' ∧
      s'.q destReg =
        ⟨(0x81FF &&& 31) * 8, ((0x81FF >>> 5) &&& 31) * 8, ((0x81FF >>> 10) &&& 31) * 8,
          (0x81FF >>> 15) * 128⟩ ∧
      (0x81FF = 0x0000 → s'.q destReg = ⟨0, 0, 0, 0⟩) ∧
      (0x81FF = 0xFFFF → s'.q destReg = ⟨248, 248, 248, 128⟩) ∧
      (0x81FF = 0x8000 → s'.q destReg = ⟨0, 0, 0, 128⟩) :=
  ⟨rfl, by decide,
    xUPK_V4_5_lanes true (sampleBase false 0 1) rfl sampleMachine 0x81FF (by decide)⟩

/-! ## Masked write -/

/-- C2: for every destination-register content `S`, prior destination
content `D` and cycle phase, the sequence emitted by `doMaskWrite` runs to
completion and stores at the destination the 16 bytes of
`(S & A) | (D & B) | C`, where `A`, `B`, `C` are `nVifMask[0][k]`,
`nVifMask[1][k]`, `nVifMask[2][k]` with `k = min(curCycle, 3)`; no other byte
of memory changes. -/
theorem doMaskWrite_blend (nVifMask : Nat) (g : VifUnpackNEON_Simple) (s : Machine) :
    ∃ s', run (g.doMaskWrite nVifMask destReg) s = some s' ∧
      (∀ j : Fin 16, s'.mem (dstIndirect.addr s + j) =
        ((((s.q destReg).and (rd128 s.mem (nVifMask + maskOffset 0 (min g.curCycle 3)))).or
          ((rd128 s.mem (dstIndirect.addr s)).and
            (rd128 s.mem (nVifMask + maskOffset 1 (min g.curCycle 3))))).or
          (rd128 s.mem (nVifMask + maskOffset 2 (min g.curCycle 3)))).byte j) ∧
      (∀ p, (p < dstIndirect.addr s ∨ dstIndirect.addr s + 16 ≤ p) → s'.mem p = s.mem p) := by
  simp [VifUnpackNEON_Simple.doMaskWrite, run, exec, Machine.setX, Machine.setQ, destReg,
    dstIndirect, MemOperand.addr, RXARG1, RXVIXLSCRATCH, MemOperand.plus]
  refine ⟨fun j => ?_, fun p hp => ?_⟩
  · rw [wr128_inside _ _ _ _ j.isLt, V128.or_right_comm]
  · exact wr128_outside _ _ _ _ (by omega)

/-! ## Helper sequences -/

theorem run_zeroLane3 (s : Machine) (v : V128) :
    run [zeroLane3] (s.setQ destReg v) = some (s.setQ destReg ⟨v.l0, v.l1, v.l2, 0⟩) := by
  simp [run, exec, zeroLane3, Machine.rdW, wzr, V128.setLane, destReg]

theorem xPMOVXX16_no_ret (a64 : Bool) (g : VifUnpackNEON_Base) (r : Nat) :
    Instr.Ret ∉ g.xPMOVXX16 a64 r := by
  cases a64 <;> cases hu : g.usn <;> simp [VifUnpackNEON_Base.xPMOVXX16, hu]

theorem xPMOVXX8_no_ret (a64 : Bool) (g : VifUnpackNEON_Base) (r : Nat) :
    Instr.Ret ∉ g.xPMOVXX8 a64 r := by
  cases a64 <;> cases hu : g.usn <;> simp [VifUnpackNEON_Base.xPMOVXX8, hu]

theorem zeroLane3_not_mem_xPMOVXX16 (a64 : Bool) (g : VifUnpackNEON_Base) (r : Nat) :
    zeroLane3 ∉ g.xPMOVXX16 a64 r := by
  cases a64 <;> cases hu : g.usn <;> simp [VifUnpackNEON_Base.xPMOVXX16, hu, zeroLane3]

theorem zeroLane3_not_mem_xPMOVXX8 (a64 : Bool) (g : VifUnpackNEON_Base) (r : Nat) :
    zeroLane3 ∉ g.xPMOVXX8 a64 r := by
  cases a64 <;> cases hu : g.usn <;> simp [VifUnpackNEON_Base.xPMOVXX8, hu, zeroLane3]

/-! ## 3-lane 16-bit format -/

theorem V3_16_cond_iff (it al : Nat) (hit : it ≤ 7) (hal : al ≤ 3) :
    (Int.land (it : Int) 1 = 0 ∧
      Int.land (Int.tdiv (it : Int) 4 + 1 + (4 - (al : Int))) 3 = 0) ↔
    (it % 2 = 0 ∧ (it / 4 + 1 + (4 - al)) &&& 3 = 0) := by
  interval_cases it <;> interval_cases al <;> decide

/-- C4: for every iteration index in 0..7 and alignment phase in 0..3,
`xUPK_V3_16` emits the instruction that zeroes lane 3 exactly when the
iteration is even and `((iteration / 4 + 1 + (4 - alignmentPhase)) & 3) == 0`;
the emitted code runs to completion with `[e0, e1, e2, 0]` in the destination
register when it is emitted and `[e0, e1, e2, e3]` otherwise, `e_i` being the
`i`-th 16-bit source element, zero-extended when `usn` holds and sign-extended
otherwise. -/
theorem xUPK_V3_16_zero_fill (a64 : Bool) (g : VifUnpackNEON_Base) (it al : Nat)
    (hit : it ≤ 7) (hal : al ≤ 3) (hIt : g.UnpkLoopIteration = it) (hAl : g.IsAligned = al)
    (hIn : g.IsInputMasked = false) (s : Machine) :
    (zeroLane3 ∈ g.xUPK_V3_16 a64 ↔
      (it % 2 = 0 ∧ (it / 4 + 1 + (4 - al)) &&& 3 = 0)) ∧
    ∃ s', run (g.xUPK_V3_16 a64) s = some s' ∧
      s'.q destReg =
        ⟨ext16 g.usn (rd16 s.mem (srcIndirect.addr s)),
          ext16 g.usn (rd16 s.mem (srcIndirect.addr s + 2)),
          ext16 g.usn (rd16 s.mem (srcIndirect.addr s + 4)),
          if it % 2 = 0 ∧ (it / 4 + 1 + (4 - al)) &&& 3 = 0 then 0
          else ext16 g.usn (rd16 s.mem (srcIndirect.addr s + 6))⟩ := by
  have hc := V3_16_cond_iff it al hit hal
  rw [← hIt, ← hAl] at hc
  by_cases h : it % 2 = 0 ∧ (it / 4 + 1 + (4 - al)) &&& 3 = 0
  · have h' := hc.mpr h
    have hcode : g.xUPK_V3_16 a64 = g.xPMOVXX16 a64 destReg ++ [zeroLane3] := by
      simp only [VifUnpackNEON_Base.xUPK_V3_16, VifUnpackNEON_Base.V3_16_result, hIn]
      rw [if_pos h']; rfl
    rw [hcode, run_append _ _ _ (xPMOVXX16_no_ret _ _ _), run_xPMOVXX16]
    simp [h, run_zeroLane3, src16x4]
  · have h' := fun e => h (hc.mp e)
    have hcode : g.xUPK_V3_16 a64 = g.xPMOVXX16 a64 destReg := by
      simp only [VifUnpackNEON_Base.xUPK_V3_16, VifUnpackNEON_Base.V3_16_result, hIn]
      rw [if_neg h']; simp
    rw [hcode, run_xPMOVXX16]
    simp [h, zeroLane3_not_mem_xPMOVXX16, src16x4]

/-- Witness for C4: iteration 0 with alignment phase 1, where lane 3 is zeroed. -/
theorem xUPK_V3_16_zero_fill_witness :
    (0 : Nat) ≤ 7 ∧
    (1 : Nat) ≤ 3 ∧
    (sampleBase false 0 1).UnpkLoopIteration = ((0 : Nat) : Int) ∧
    (sampleBase false 0 1).IsAligned = ((1 : Nat) : Int) ∧
    (sampleBase false 0 1).IsInputMasked = false ∧
    ((zeroLane3 ∈ (sampleBase false 0 1).xUPK_V3_16 true ↔
      (0 % 2 = 0 ∧ (0 / 4 + 1 + (4 - 1)) &&& 3 = 0)) ∧
    ∃ s', run ((sampleBase false 0 1).xUPK_V3_16 true) sampleMachine = some s' ∧
      s'.q destReg =
        ⟨ext16 (sampleBase false 0 1).usn (rd16 sampleMachine.mem (srcIndirect.addr sampleMachine)),
          ext16 (sampleBase false 0 1).usn (rd16 sampleMachine.mem (srcIndirect.addr sampleMachine
              + 2)),
          ext16 (sampleBase false 0 1).usn (rd16 sampleMachine.mem (srcIndirect.addr sampleMachine
              + 4)),
          if 0 % 2 = 0 ∧ (0 / 4 + 1 + (4 - 1)) &&& 3 = 0 then 0
          else ext16 (sampleBase false 0 1).usn (rd16 sampleMachine.mem (srcIndirect.addr
              sampleMachine + 6))⟩) :=
  ⟨by decide, by decide, rfl, rfl, rfl,
    xUPK_V3_16_zero_fill true (sampleBase false 0 1) 0 1 (by decide) (by decide) rfl rfl rfl
        sampleMachine⟩

/-! ## 2-lane formats -/

/-- C6: for the 2-lane formats, at iteration 0 the generator loads the source
into the work register `[v0, v1, v2, v3]` (extended for the 16- and 8-bit
formats) and produces `[v0, v1, v0, v1]`; at any other iteration it emits no
memory load and produces `[v2, v3, v2, v3]` from the work register.  Only
`xUPK_V2_32` then zeroes lane 3, and only when `IsAligned` is non-zero;
`xUPK_V2_16` and `xUPK_V2_8` never emit the lane-3 zeroing instruction. -/
theorem xUPK_V2_lanes (a64 : Bool) (g : VifUnpackNEON_Base) (hIn : g.IsInputMasked = false)
    (s : Machine) :
    (g.UnpkLoopIteration = 0 →
      V2First g.xUPK_V2_32 (rd128 s.mem (srcIndirect.addr s)) (g.IsAligned != 0) s ∧
      V2First (g.xUPK_V2_16 a64) (src16x4 g.usn s.mem (srcIndirect.addr s)) false s ∧
      V2First (g.xUPK_V2_8 a64) (src8x4 g.usn s.mem (srcIndirect.addr s)) false s) ∧
    (g.UnpkLoopIteration ≠ 0 →
      V2Second g.xUPK_V2_32 (g.IsAligned != 0) s ∧
      V2Second (g.xUPK_V2_16 a64) false s ∧
      V2Second (g.xUPK_V2_8 a64) false s) ∧
    zeroLane3 ∉ g.xUPK_V2_16 a64 ∧ zeroLane3 ∉ g.xUPK_V2_8 a64 := by
  refine ⟨fun h0 => ⟨?_, ?_, ?_⟩, fun h1 => ⟨?_, ?_, ?_⟩, ?_, ?_⟩
  · by_cases hal : g.IsAligned = 0 <;>
      simp [V2First, VifUnpackNEON_Base.xUPK_V2_32, h0, hIn, hal, run, exec, Instr.isLoad,
          Instr.isLoadFrom, srcIndirect, RXARG2, workReg, destReg,
        V128.lane, V128.setLane, Machine.rdW, wzr]
  · have hcode : g.xUPK_V2_16 a64 = g.xPMOVXX16 a64 workReg ++ [.Dup2D destReg workReg 0] := by
      simp [VifUnpackNEON_Base.xUPK_V2_16, h0, hIn]
    rw [hcode]
    refine ⟨?_, ?_⟩
    · cases a64 <;> cases hu : g.usn <;> simp [VifUnpackNEON_Base.xPMOVXX16, hu, Instr.isLoad,
        Instr.isLoadFrom, srcIndirect, RXARG2]
    · rw [run_append _ _ _ (xPMOVXX16_no_ret _ _ _), run_xPMOVXX16]
      simp [run, exec, workReg, destReg, V128.lane]
  · have hcode : g.xUPK_V2_8 a64 = g.xPMOVXX8 a64 workReg ++ [.Dup2D destReg workReg 0] := by
      simp [VifUnpackNEON_Base.xUPK_V2_8, h0, hIn]
    rw [hcode]
    refine ⟨?_, ?_⟩
    · cases a64 <;> cases hu : g.usn <;> simp [VifUnpackNEON_Base.xPMOVXX8, hu, Instr.isLoad,
        Instr.isLoadFrom, srcIndirect, RXARG2]
    · rw [run_append _ _ _ (xPMOVXX8_no_ret _ _ _), run_xPMOVXX8]
      simp [run, exec, workReg, destReg, V128.lane]
  · by_cases hal : g.IsAligned = 0 <;>
      simp [V2Second, VifUnpackNEON_Base.xUPK_V2_32, h1, hIn, hal, run, exec, Instr.isLoad,
          Instr.isLoadFrom, srcIndirect, RXARG2, workReg, destReg,
        V128.lane, V128.setLane, Machine.rdW, wzr]
  · simp [V2Second, VifUnpackNEON_Base.xUPK_V2_16, h1, hIn, run, exec, Instr.isLoad,
      Instr.isLoadFrom, srcIndirect, RXARG2, workReg, destReg, V128.lane]
  · simp [V2Second, VifUnpackNEON_Base.xUPK_V2_8, h1, hIn, run, exec, Instr.isLoad,
      Instr.isLoadFrom, srcIndirect, RXARG2, workReg, destReg, V128.lane]
  · by_cases h0 : g.UnpkLoopIteration = 0
    · simp [VifUnpackNEON_Base.xUPK_V2_16, h0, hIn, zeroLane3_not_mem_xPMOVXX16]; simp [zeroLane3]
    · simp [VifUnpackNEON_Base.xUPK_V2_16, h0, hIn, zeroLane3]
  · by_cases h0 : g.UnpkLoopIteration = 0
    · simp [VifUnpackNEON_Base.xUPK_V2_8, h0, hIn, zeroLane3_not_mem_xPMOVXX8]; simp [zeroLane3]
    · simp [VifUnpackNEON_Base.xUPK_V2_8, h0, hIn, zeroLane3]

/-- Witness for C6: iteration 0 with the alignment flag set. -/
theorem xUPK_V2_lanes_witness :
    (sampleBase false 0 1).IsInputMasked = false ∧
    (((sampleBase false 0 1).UnpkLoopIteration = 0 →
      V2First (sampleBase false 0 1).xUPK_V2_32 (rd128 sampleMachine.mem (srcIndirect.addr
          sampleMachine)) ((sampleBase false 0 1).IsAligned != 0) sampleMachine ∧
      V2First ((sampleBase false 0 1).xUPK_V2_16 true) (src16x4 (sampleBase false 0 1).usn
          sampleMachine.mem (srcIndirect.addr sampleMachine)) false sampleMachine ∧
      V2First ((sampleBase false 0 1).xUPK_V2_8 true) (src8x4 (sampleBase false 0 1).usn
          sampleMachine.mem (srcIndirect.addr sampleMachine)) false sampleMachine) ∧
    ((sampleBase false 0 1).UnpkLoopIteration ≠ 0 →
      V2Second (sampleBase false 0 1).xUPK_V2_32 ((sampleBase false 0 1).IsAligned != 0)
          sampleMachine ∧
      V2Second ((sampleBase false 0 1).xUPK_V2_16 true) false sampleMachine ∧
      V2Second ((sampleBase false 0 1).xUPK_V2_8 true) false sampleMachine) ∧
    zeroLane3 ∉ (sampleBase false 0 1).xUPK_V2_16 true ∧ zeroLane3 ∉ (sampleBase false 0
        1).xUPK_V2_8 true) :=
  ⟨rfl,
    xUPK_V2_lanes true (sampleBase false 0 1) rfl sampleMachine⟩

/-! ## 3-lane and 4-lane formats -/

/-- C7: for `xUPK_V3_32` and `xUPK_V3_8`, for every iteration index and
alignment marker, the lane-3 zeroing instruction is emitted exactly when
`UnpkLoopIteration != IsAligned`; the code runs to completion with the three
(extended) source elements in lanes 0..2, and lane 3 is 0 when the zeroing
is emitted and the fourth element read from the source otherwise. -/
theorem xUPK_V3_lanes (a64 : Bool) (g : VifUnpackNEON_Base) (hIn : g.IsInputMasked = false)
    (s : Machine) :
    (zeroLane3 ∈ g.xUPK_V3_32 ↔ g.UnpkLoopIteration ≠ g.IsAligned) ∧
    (∃ s', run g.xUPK_V3_32 s = some s' ∧
      s'.q destReg =
        ⟨rd32 s.mem (srcIndirect.addr s), rd32 s.mem (srcIndirect.addr s + 4),
          rd32 s.mem (srcIndirect.addr s + 8),
          if g.UnpkLoopIteration ≠ g.IsAligned then 0
          else rd32 s.mem (srcIndirect.addr s + 12)⟩) ∧
    (zeroLane3 ∈ g.xUPK_V3_8 a64 ↔ g.UnpkLoopIteration ≠ g.IsAligned) ∧
    (∃ s', run (g.xUPK_V3_8 a64) s = some s' ∧
      s'.q destReg =
        ⟨ext8 g.usn (rd8 s.mem (srcIndirect.addr s)),
          ext8 g.usn (rd8 s.mem (srcIndirect.addr s + 1)),
          ext8 g.usn (rd8 s.mem (srcIndirect.addr s + 2)),
          if g.UnpkLoopIteration ≠ g.IsAligned then 0
          else ext8 g.usn (rd8 s.mem (srcIndirect.addr s + 3))⟩) := by
  by_cases h : g.UnpkLoopIteration = g.IsAligned
  · have h8 : g.xUPK_V3_8 a64 = g.xPMOVXX8 a64 destReg := by
      simp [VifUnpackNEON_Base.xUPK_V3_8, hIn, h]
    refine ⟨?_, ?_, ?_, ?_⟩
    · simp [VifUnpackNEON_Base.xUPK_V3_32, hIn, h, zeroLane3]
    · simp [VifUnpackNEON_Base.xUPK_V3_32, hIn, h, run, exec, rd128, destReg]
    · simp [h8, h, zeroLane3_not_mem_xPMOVXX8]
    · rw [h8, run_xPMOVXX8]
      simp [h, src8x4]
  · have h8 : g.xUPK_V3_8 a64 = g.xPMOVXX8 a64 destReg ++ [zeroLane3] := by
      simp [VifUnpackNEON_Base.xUPK_V3_8, hIn, h, zeroLane3]
    refine ⟨?_, ?_, ?_, ?_⟩
    · simp [VifUnpackNEON_Base.xUPK_V3_32, hIn, h, zeroLane3]
    · simp [VifUnpackNEON_Base.xUPK_V3_32, hIn, h, run, exec, rd128, destReg, V128.setLane,
        Machine.rdW, wzr]
    · simp [h8, h]
    · rw [h8, run_append _ _ _ (xPMOVXX8_no_ret _ _ _), run_xPMOVXX8]
      simp [h, run_zeroLane3, src8x4]

/-- Witness for C7: iteration index equal to the alignment marker, so lane 3 is kept. -/
theorem xUPK_V3_lanes_witness :
    (sampleBase false 1 1).IsInputMasked = false ∧
    ((zeroLane3 ∈ (sampleBase false 1 1).xUPK_V3_32 ↔ (sampleBase false 1 1).UnpkLoopIteration ≠
        (sampleBase false 1 1).IsAligned) ∧
    (∃ s', run (sampleBase false 1 1).xUPK_V3_32 sampleMachine = some s' ∧
      s'.q destReg =
        ⟨rd32 sampleMachine.mem (srcIndirect.addr sampleMachine), rd32 sampleMachine.mem
            (srcIndirect.addr sampleMachine + 4),
          rd32 sampleMachine.mem (srcIndirect.addr sampleMachine + 8),
          if (sampleBase false 1 1).UnpkLoopIteration ≠ (sampleBase false 1 1).IsAligned then 0
          else rd32 sampleMachine.mem (srcIndirect.addr sampleMachine + 12)⟩) ∧
    (zeroLane3 ∈ (sampleBase false 1 1).xUPK_V3_8 true ↔ (sampleBase false 1 1).UnpkLoopIteration ≠
        (sampleBase false 1 1).IsAligned) ∧
    (∃ s', run ((sampleBase false 1 1).xUPK_V3_8 true) sampleMachine = some s' ∧
      s'.q destReg =
        ⟨ext8 (sampleBase false 1 1).usn (rd8 sampleMachine.mem (srcIndirect.addr sampleMachine)),
          ext8 (sampleBase false 1 1).usn (rd8 sampleMachine.mem (srcIndirect.addr sampleMachine +
              1)),
          ext8 (sampleBase false 1 1).usn (rd8 sampleMachine.mem (srcIndirect.addr sampleMachine +
              2)),
          if (sampleBase false 1 1).UnpkLoopIteration ≠ (sampleBase false 1 1).IsAligned then 0
          else ext8 (sampleBase false 1 1).usn (rd8 sampleMachine.mem (srcIndirect.addr
              sampleMachine + 3))⟩)) :=
  ⟨rfl,
    xUPK_V3_lanes true (sampleBase false 1 1) rfl sampleMachine⟩

/-- C8: for the 4-lane formats, for every source content, iteration index
and alignment flag: `xUPK_V4_32` yields the four source words unchanged,
`xUPK_V4_16` yields in lane `i` the `i`-th 16-bit source element and
`xUPK_V4_8` the `i`-th source byte, zero-extended when `usn` holds and
sign-extended otherwise; none of them emits the lane-3 zeroing instruction. -/
theorem xUPK_V4_lanes (a64 : Bool) (g : VifUnpackNEON_Base) (hIn : g.IsInputMasked = false)
    (s : Machine) :
    (∃ s', run (g.xUPK_V4_32 a64) s = some s' ∧
      s'.q destReg =
        ⟨rd32 s.mem (srcIndirect.addr s), rd32 s.mem (srcIndirect.addr s + 4),
          rd32 s.mem (srcIndirect.addr s + 8), rd32 s.mem (srcIndirect.addr s + 12)⟩) ∧
    (∃ s', run (g.xUPK_V4_16 a64) s = some s' ∧
      ∀ i : Fin 4, (s'.q destReg).lane i =
        if g.usn then rd16 s.mem (srcIndirect.addr s + 2 * i)
        else sext16to32 (rd16 s.mem (srcIndirect.addr s + 2 * i))) ∧
    (∃ s', run (g.xUPK_V4_8 a64) s = some s' ∧
      ∀ i : Fin 4, (s'.q destReg).lane i =
        if g.usn then rd8 s.mem (srcIndirect.addr s + i)
        else sext8to32 (rd8 s.mem (srcIndirect.addr s + i))) ∧
    zeroLane3 ∉ g.xUPK_V4_32 a64 ∧ zeroLane3 ∉ g.xUPK_V4_16 a64 ∧
    zeroLane3 ∉ g.xUPK_V4_8 a64 := by
  have h16 : run (g.xUPK_V4_16 a64) s =
      some (s.setQ destReg (src16x4 g.usn s.mem (srcIndirect.addr s))) := by
    rw [← run_xPMOVXX16 a64]
    cases a64 <;> cases hu : g.usn <;> simp [VifUnpackNEON_Base.xUPK_V4_16,
        VifUnpackNEON_Base.xPMOVXX16, hIn, hu]
  have h8 : run (g.xUPK_V4_8 a64) s =
      some (s.setQ destReg (src8x4 g.usn s.mem (srcIndirect.addr s))) := by
    rw [← run_xPMOVXX8 a64]
    cases a64 <;> cases hu : g.usn <;> simp [VifUnpackNEON_Base.xUPK_V4_8,
        VifUnpackNEON_Base.xPMOVXX8, hIn, hu]
  refine ⟨?_, ⟨_, h16, ?_⟩, ⟨_, h8, ?_⟩, ?_, ?_, ?_⟩
  · cases a64 <;> simp [VifUnpackNEON_Base.xUPK_V4_32, hIn, run, exec, rd128, destReg]
  · intro i
    fin_cases i <;> simp [src16x4, ext16, V128.lane]
  · intro i
    fin_cases i <;> simp [src8x4, ext8, V128.lane]
  · cases a64 <;> simp [VifUnpackNEON_Base.xUPK_V4_32, hIn, zeroLane3]
  · cases a64 <;> cases hu : g.usn <;> simp [VifUnpackNEON_Base.xUPK_V4_16,
      VifUnpackNEON_Base.xPMOVXX16, hIn, hu, zeroLane3]
  · cases a64 <;> cases hu : g.usn <;> simp [VifUnpackNEON_Base.xUPK_V4_8,
      VifUnpackNEON_Base.xPMOVXX8, hIn, hu, zeroLane3]

/-- Witness for C8: a signed generator at iteration 5. -/
theorem xUPK_V4_lanes_witness :
    (sampleBase false 5 1).IsInputMasked = false ∧
    ((∃ s', run ((sampleBase false 5 1).xUPK_V4_32 true) sampleMachine = some s' ∧
      s'.q destReg =
        ⟨rd32 sampleMachine.mem (srcIndirect.addr sampleMachine), rd32 sampleMachine.mem
            (srcIndirect.addr sampleMachine + 4),
          rd32 sampleMachine.mem (srcIndirect.addr sampleMachine + 8), rd32 sampleMachine.mem
              (srcIndirect.addr sampleMachine + 12)⟩) ∧
    (∃ s', run ((sampleBase false 5 1).xUPK_V4_16 true) sampleMachine = some s' ∧
      ∀ i : Fin 4, (s'.q destReg).lane i =
        if (sampleBase false 5 1).usn then rd16 sampleMachine.mem (srcIndirect.addr sampleMachine +
            2 * i)
        else sext16to32 (rd16 sampleMachine.mem (srcIndirect.addr sampleMachine + 2 * i))) ∧
    (∃ s', run ((sampleBase false 5 1).xUPK_V4_8 true) sampleMachine = some s' ∧
      ∀ i : Fin 4, (s'.q destReg).lane i =
        if (sampleBase false 5 1).usn then rd8 sampleMachine.mem (srcIndirect.addr sampleMachine +
            i)
        else sext8to32 (rd8 sampleMachine.mem (srcIndirect.addr sampleMachine + i))) ∧
    zeroLane3 ∉ (sampleBase false 5 1).xUPK_V4_32 true ∧ zeroLane3 ∉ (sampleBase false 5
        1).xUPK_V4_16 true ∧
    zeroLane3 ∉ (sampleBase false 5 1).xUPK_V4_8 true) :=
  ⟨rfl,
    xUPK_V4_lanes true (sampleBase false 5 1) rfl sampleMachine⟩

/-! ## The handler table -/

theorem nVifIndex_slot (u m i c : Nat) (hi : i < 16) (hc : c < 4) :
    nVifIndex u m i c / 4 % 16 = i := by
  unfold nVifIndex; omega

theorem nVifGenStep_armAsmPtr_le (B : Build) (u m c : Nat) (g : VifUnpackNEON_Simple)
    (st : RecState) (i : Nat) : st.armAsmPtr ≤ (nVifGenStep B u m c g st i).armAsmPtr := by
  unfold nVifGenStep
  split
  · exact Nat.le_refl _
  · exact Nat.le_add_right _ _

theorem nVifGenStep_slot (B : Build) (u m c : Nat) (g : VifUnpackNEON_Simple)
    (st : RecState) (i : Nat) (hb : 0 < B.recStart) (hp : B.recStart ≤ st.armAsmPtr)
    (hi : i < 16) (hc : c < 4) (k : Nat)
    (hk : SlotOK B st k ∨ k = nVifIndex u m i c) :
    SlotOK B (nVifGenStep B u m c g st i) k := by
  unfold SlotOK nVifGenStep
  by_cases hki : k = nVifIndex u m i c
  · subst hki
    rw [nVifIndex_slot u m i c hi hc]
    by_cases hT : B.nVifT i = 0
    · simp [hT, setEntry]
    · simp only [hT, if_false, setEntry, if_true, iff_false, armStartBlock]
      omega
  · have h := hk.resolve_right hki
    by_cases hT : B.nVifT i = 0
    · simpa [hT, setEntry, hki] using h
    · simpa [hT, setEntry, hki] using h

theorem foldl_nVifGenStep_slot (B : Build) (u m c : Nat) (g : VifUnpackNEON_Simple)
    (hb : 0 < B.recStart) (hc : c < 4) (l : List Nat) (hl : ∀ i ∈ l, i < 16) :
    ∀ st : RecState, B.recStart ≤ st.armAsmPtr →
      B.recStart ≤ (l.foldl (nVifGenStep B u m c g) st).armAsmPtr ∧
      ∀ k, (SlotOK B st k ∨ ∃ i ∈ l, k = nVifIndex u m i c) →
        SlotOK B (l.foldl (nVifGenStep B u m c g) st) k := by
  induction l with
  | nil =>
    intro st hp
    refine ⟨hp, fun k hk => ?_⟩
    rcases hk with h | ⟨i, hi, _⟩
    · exact h
    · cases hi
  | cons a l ih =>
    intro st hp
    have ha : a < 16 := hl a (by simp)
    have hl' : ∀ i ∈ l, i < 16 := fun i hi => hl i (by simp [hi])
    have hp1 : B.recStart ≤ (nVifGenStep B u m c g st a).armAsmPtr :=
      Nat.le_trans hp (nVifGenStep_armAsmPtr_le B u m c g st a)
    obtain ⟨h1, h2⟩ := ih hl' (nVifGenStep B u m c g st a) hp1
    refine ⟨h1, fun k hk => ?_⟩
    apply h2
    rcases hk with h | ⟨i, hi, hk⟩
    · exact Or.inl (nVifGenStep_slot B u m c g st a hb hp ha hc k (Or.inl h))
    · rcases List.mem_cons.mp hi with rfl | hi
      · exact Or.inl (nVifGenStep_slot B u m c g st i hb hp ha hc k (Or.inr hk))
      · exact Or.inr ⟨i, hi, hk⟩

theorem nVifGen_slot (B : Build) (u m c : Nat) (hb : 0 < B.recStart) (hc : c < 4)
    (st : RecState) (hp : B.recStart ≤ st.armAsmPtr) :
    B.recStart ≤ (nVifGen B u m c st).armAsmPtr ∧
    ∀ k, (SlotOK B st k ∨ ∃ i, i < 16 ∧ k = nVifIndex u m i c) →
      SlotOK B (nVifGen B u m c st) k := by
  have h := foldl_nVifGenStep_slot B u m c
    (VifUnpackNEON_Simple.ctor (u != 0) (m != 0) c) hb hc (List.range 16)
    (fun i hi => List.mem_range.mp hi)
    { st with trace := st.trace ++ [.nVifGenCall u m c] } hp
  refine ⟨h.1, fun k hk => h.2 k ?_⟩
  rcases hk with h | ⟨i, hi, hk⟩
  · exact Or.inl h
  · exact Or.inr ⟨i, List.mem_range.mpr hi, hk⟩

theorem VifUnpackSSE_Init_calls (B : Build) (st : RecState) :
    (VifUnpackSSE_Init B st).nVifUpk =
      (initCalls.foldl (fun s t => nVifGen B t.1 t.2.1 t.2.2 s)
        { st with
          armAsmPtr := B.recStart
          trace := st.trace ++
            [.devConWriteLn, .beginCodeWrite,
              .armSetAsmPtr B.recStart (B.recEnd - B.recStart)] }).nVifUpk := by
  rfl

theorem foldl_nVifGen_slot (B : Build) (hb : 0 < B.recStart) (l : List (Nat × Nat × Nat))
    (hl : ∀ t ∈ l, t.2.2 < 4) :
    ∀ st : RecState, B.recStart ≤ st.armAsmPtr →
      B.recStart ≤ (l.foldl (fun s t => nVifGen B t.1 t.2.1 t.2.2 s) st).armAsmPtr ∧
      ∀ k, (SlotOK B st k ∨ ∃ t ∈ l, ∃ i, i < 16 ∧ k = nVifIndex t.1 t.2.1 i t.2.2) →
        SlotOK B (l.foldl (fun s t => nVifGen B t.1 t.2.1 t.2.2 s) st) k := by
  induction l with
  | nil =>
    intro st hp
    refine ⟨hp, fun k hk => ?_⟩
    rcases hk with h | ⟨t, ht, _⟩
    · exact h
    · cases ht
  | cons a l ih =>
    intro st hp
    have ha : a.2.2 < 4 := hl a (by simp)
    have hl' : ∀ t ∈ l, t.2.2 < 4 := fun t ht => hl t (by simp [ht])
    obtain ⟨hp1, hs1⟩ := nVifGen_slot B a.1 a.2.1 a.2.2 hb ha st hp
    obtain ⟨h1, h2⟩ := ih hl' (nVifGen B a.1 a.2.1 a.2.2 st) hp1
    refine ⟨h1, fun k hk => ?_⟩
    apply h2
    rcases hk with h | ⟨t, ht, hk⟩
    · exact Or.inl (hs1 k (Or.inl h))
    · rcases List.mem_cons.mp ht with rfl | ht
      · exact Or.inl (hs1 k (Or.inr hk))
      · exact Or.inr ⟨t, ht, hk⟩

theorem mem_initCalls (u m c : Nat) (hu : u < 2) (hm : m < 2) (hc : c < 4) :
    (u, m, c) ∈ initCalls := by
  interval_cases u <;> interval_cases m <;> interval_cases c <;> decide

/-- After the build pass a slot of the table is null exactly when the
element-size table is zero at the slot's format id. -/
theorem VifUnpackSSE_Init_slot (B : Build) (hb : 0 < B.recStart) (st : RecState) (k : Nat)
    (hk : k < 256) :
    (VifUnpackSSE_Init B st).nVifUpk k = 0 ↔ B.nVifT (k / 4 % 16) = 0 := by
  rw [VifUnpackSSE_Init_calls]
  have h := (foldl_nVifGen_slot B hb initCalls (by decide)
    { st with
      armAsmPtr := B.recStart
      trace := st.trace ++
        [.devConWriteLn, .beginCodeWrite,
          .armSetAsmPtr B.recStart (B.recEnd - B.recStart)] } (Nat.le_refl _)).2 k
  apply h
  refine Or.inr ⟨(k / 128, k / 64 % 2, k % 4), ?_, k / 4 % 16, ?_, ?_⟩
  · exact mem_initCalls _ _ _ (by omega) (by omega) (by omega)
  · omega
  · simp only [nVifIndex]; omega

/-- C5: after `VifUnpackSSE_Init`, with `nVifT` zero exactly at the ids 3, 7
and 11 and a non-null code region (so block entry points are non-null), the
entry `nVifUpk[((unsignedSource*32 + maskEnabled*16 + id)*4) + cyclePhase]`
is null if and only if `id` is 3, 7 or 11. -/
theorem upk_null_iff_reserved (B : Build)
    (hT : ∀ i, i < 16 → (B.nVifT i = 0 ↔ i = 3 ∨ i = 7 ∨ i = 11))
    (hb : 0 < B.recStart) (st : RecState)
    (unsignedSource maskEnabled cyclePhase id : Nat) (hu : unsignedSource < 2)
    (hm : maskEnabled < 2) (hc : cyclePhase < 4) (hid : id < 16) :
    (VifUnpackSSE_Init B st).nVifUpk
        (((unsignedSource * 32 + maskEnabled * 16 + id) * 4) + cyclePhase) = 0 ↔
      id = 3 ∨ id = 7 ∨ id = 11 := by
  rw [VifUnpackSSE_Init_slot B hb st _ (by omega), ← hT id hid]
  have e : ((unsignedSource * 32 + maskEnabled * 16 + id) * 4 + cyclePhase) / 4 % 16 = id := by
    omega
  rw [e]

/-- Witness for C5: the reserved id 7 in the sample build. -/
theorem upk_null_iff_reserved_witness :
    (∀ i, i < 16 → (sampleBuild.nVifT i = 0 ↔ i = 3 ∨ i = 7 ∨ i = 11)) ∧
    0 < sampleBuild.recStart ∧
    (1 : Nat) < 2 ∧
    (0 : Nat) < 2 ∧
    (2 : Nat) < 4 ∧
    (7 : Nat) < 16 ∧
    ((VifUnpackSSE_Init sampleBuild sampleRec).nVifUpk
        (((1 * 32 + 0 * 16 + 7) * 4) + 2) = 0 ↔
      7 = 3 ∨ 7 = 7 ∨ 7 = 11) :=
  ⟨by decide, by decide, by decide, by decide, by decide, by decide,
    upk_null_iff_reserved sampleBuild (by decide) (by decide) sampleRec 1 0 2 7 (by decide) (by
        decide) (by decide) (by decide)⟩

/-- C10: after one `VifUnpackSSE_Init` pass, with `nVifT` zero exactly at the
ids 3, 7 and 11 and a non-null code region, the 256-entry table `nVifUpk`
holds exactly 208 non-null and exactly 48 null entries. -/
theorem upk_counts (B : Build)
    (hT : ∀ i, i < 16 → (B.nVifT i = 0 ↔ i = 3 ∨ i = 7 ∨ i = 11))
    (hb : 0 < B.recStart) (st : RecState) :
    ((List.range 256).filter (fun k => (VifUnpackSSE_Init B st).nVifUpk k != 0)).length = 208 ∧
    ((List.range 256).filter (fun k => (VifUnpackSSE_Init B st).nVifUpk k == 0)).length = 48 := by
  have h : ∀ k ∈ List.range 256, ((VifUnpackSSE_Init B st).nVifUpk k == 0) =
      decide (k / 4 % 16 = 3 ∨ k / 4 % 16 = 7 ∨ k / 4 % 16 = 11) := by
    intro k hk
    have hk' := List.mem_range.mp hk
    have h1 := VifUnpackSSE_Init_slot B hb st k hk'
    rw [hT _ (by omega)] at h1
    by_cases h0 : (VifUnpackSSE_Init B st).nVifUpk k = 0
    · rw [decide_eq_true (h1.mp h0)]; simp [h0]
    · rw [decide_eq_false (fun e => h0 (h1.mpr e))]; simp [h0]
  have h' : ∀ k ∈ List.range 256, ((VifUnpackSSE_Init B st).nVifUpk k != 0) =
      !decide (k / 4 % 16 = 3 ∨ k / 4 % 16 = 7 ∨ k / 4 % 16 = 11) := by
    intro k hk
    rw [← h k hk]; rfl
  rw [List.filter_congr h, List.filter_congr h']
  constructor <;> rfl

/-- Witness for C10: the sample build. -/
theorem upk_counts_witness :
    (∀ i, i < 16 → (sampleBuild.nVifT i = 0 ↔ i = 3 ∨ i = 7 ∨ i = 11)) ∧
    0 < sampleBuild.recStart ∧
    (((List.range 256).filter (fun k => (VifUnpackSSE_Init sampleBuild sampleRec).nVifUpk k !=
        0)).length = 208 ∧
    ((List.range 256).filter (fun k => (VifUnpackSSE_Init sampleBuild sampleRec).nVifUpk k ==
        0)).length = 48) :=
  ⟨by decide, by decide,
    upk_counts sampleBuild (by decide) (by decide) sampleRec⟩

theorem nVifIndex_inj (u m c i j : Nat) (h : nVifIndex u m i c = nVifIndex u m j c) : i = j := by
  unfold nVifIndex at h; omega

theorem nVifGenStep_keep (B : Build) (u m c : Nat) (g : VifUnpackNEON_Simple)
    (st : RecState) (i : Nat) :
    (∀ b ∈ st.blocks, b ∈ (nVifGenStep B u m c g st i).blocks) ∧
    ∀ k, k ≠ nVifIndex u m i c → (nVifGenStep B u m c g st i).nVifUpk k = st.nVifUpk k := by
  unfold nVifGenStep
  by_cases hT : B.nVifT i = 0
  · simp only [hT, if_true]
    exact ⟨fun b hb => hb, fun k hk => by simp [setEntry, hk]⟩
  · simp only [hT, if_false]
    exact ⟨fun b hb => List.mem_append_left _ hb, fun k hk => by simp [setEntry, hk]⟩

theorem foldl_nVifGenStep_keep (B : Build) (u m c : Nat) (g : VifUnpackNEON_Simple)
    (l : List Nat) :
    ∀ st : RecState,
      (∀ b ∈ st.blocks, b ∈ (l.foldl (nVifGenStep B u m c g) st).blocks) ∧
      ∀ k, (∀ i ∈ l, k ≠ nVifIndex u m i c) →
        (l.foldl (nVifGenStep B u m c g) st).nVifUpk k = st.nVifUpk k := by
  induction l with
  | nil => intro st; exact ⟨fun b hb => hb, fun k _ => rfl⟩
  | cons a l ih =>
    intro st
    obtain ⟨h1, h2⟩ := ih (nVifGenStep B u m c g st a)
    obtain ⟨s1, s2⟩ := nVifGenStep_keep B u m c g st a
    refine ⟨fun b hb => h1 b (s1 b hb), fun k hk => ?_⟩
    rw [List.foldl_cons, h2 k (fun i hi => hk i (by simp [hi])), s2 k (hk a (by simp))]

theorem nVifGenStep_records (B : Build) (u m c : Nat) (g : VifUnpackNEON_Simple)
    (st : RecState) (i : Nat) (hT : B.nVifT i ≠ 0) :
    ((nVifGenStep B u m c g st i).nVifUpk (nVifIndex u m i c), nVifGenBlock B g i) ∈
      (nVifGenStep B u m c g st i).blocks := by
  unfold nVifGenStep
  simp [hT, setEntry]

theorem foldl_nVifGenStep_records (B : Build) (u m c : Nat) (g : VifUnpackNEON_Simple)
    (l : List Nat) (hnd : l.Nodup) :
    ∀ st : RecState, ∀ i ∈ l, B.nVifT i ≠ 0 →
      ((l.foldl (nVifGenStep B u m c g) st).nVifUpk (nVifIndex u m i c), nVifGenBlock B g i) ∈
        (l.foldl (nVifGenStep B u m c g) st).blocks := by
  induction l with
  | nil => intro st i hi; cases hi
  | cons a l ih =>
    intro st i hi hT
    rw [List.nodup_cons] at hnd
    rw [List.foldl_cons]
    rcases List.mem_cons.mp hi with rfl | hi
    · obtain ⟨h1, h2⟩ := foldl_nVifGenStep_keep B u m c g l (nVifGenStep B u m c g st i)
      rw [h2 _ (fun j hj e => hnd.1 (by rw [nVifIndex_inj u m c i j e]; exact hj))]
      exact h1 _ (nVifGenStep_records B u m c g st i hT)
    · exact ih hnd.2 _ i hi hT

/-- The block that `nVifGen` writes for a format with a non-zero element size
is stored in the code region, and its entry point is what the table slot of
that format holds. -/
theorem nVifGen_records (B : Build) (u m c : Nat) (st : RecState) (i : Nat) (hi : i < 16)
    (hT : B.nVifT i ≠ 0) :
    ((nVifGen B u m c st).nVifUpk (nVifIndex u m i c),
      nVifGenBlock B (VifUnpackNEON_Simple.ctor (u != 0) (m != 0) c) i) ∈
        (nVifGen B u m c st).blocks :=
  foldl_nVifGenStep_records B u m c _ (List.range 16) (List.nodup_range 16) _ i
    (List.mem_range.mpr hi) hT

/-! ## Handlers built by `nVifGen` -/

theorem simple_xUnpack_runs (a64 usn_ domask_ : Bool) (c i : Nat) (hi : i < 16) (s : Machine) :
    Instr.Ret ∉ (VifUnpackNEON_Simple.ctor usn_ domask_ c).toVifUnpackNEON_Base.xUnpack a64 i ∧
    ∃ s1, run ((VifUnpackNEON_Simple.ctor usn_ domask_ c).toVifUnpackNEON_Base.xUnpack a64 i) s
        = some s1 ∧ s1.x RXARG1 = s.x RXARG1 ∧ s1.mem = s.mem := by
  interval_cases i <;> cases a64 <;> cases usn_ <;>
    simp [VifUnpackNEON_Base.xUnpack, VifUnpackNEON_Base.xUPK_S_32, VifUnpackNEON_Base.xUPK_S_16,
      VifUnpackNEON_Base.xUPK_S_8, VifUnpackNEON_Base.xUPK_V2_32, VifUnpackNEON_Base.xUPK_V2_16,
      VifUnpackNEON_Base.xUPK_V2_8, VifUnpackNEON_Base.xUPK_V3_32, VifUnpackNEON_Base.xUPK_V3_16,
      VifUnpackNEON_Base.xUPK_V3_8, VifUnpackNEON_Base.xUPK_V4_32, VifUnpackNEON_Base.xUPK_V4_16,
      VifUnpackNEON_Base.xUPK_V4_8, VifUnpackNEON_Base.xUPK_V4_5, VifUnpackNEON_Base.xPMOVXX16,
      VifUnpackNEON_Base.xPMOVXX8, VifUnpackNEON_Base.dupSwitch,
      VifUnpackNEON_Base.V3_16_result, VifUnpackNEON_Simple.ctor, run, exec, RXARG1, workGprW]

theorem simple_xMovDest (a64 : Bool) (nVifMask : Nat) (usn_ domask_ : Bool) (c : Nat) :
    (VifUnpackNEON_Simple.ctor usn_ domask_ c).xMovDest a64 nVifMask =
      if domask_ then (VifUnpackNEON_Simple.ctor usn_ domask_ c).doMaskWrite nVifMask destReg
      else if a64 then [.StrQ destReg dstIndirect, .Prfm .PSTL1KEEP (dstIndirect.plus 16)]
      else [.StrQ destReg dstIndirect] := by
  cases domask_ <;> cases a64 <;>
    simp [VifUnpackNEON_Simple.xMovDest, VifUnpackNEON_Base.xMovDest, VifUnpackNEON_Simple.ctor]

theorem run_unmasked_store (a64 : Bool) (s : Machine) :
    run ((if a64 then [Instr.StrQ destReg dstIndirect, .Prfm .PSTL1KEEP (dstIndirect.plus 16)]
          else [Instr.StrQ destReg dstIndirect]) ++ [.Ret]) s =
      some { s with mem := wr128 s.mem (dstIndirect.addr s) (s.q destReg) } := by
  cases a64 <;> simp [run, exec]

/-- C9: for every format with a non-zero element size, the routine that
`nVifGen` records is the unpack sequence followed by the write step and a
`Ret`.  When masking is disabled the write step contains no load (neither the
prior destination content nor the mask table is read) and, for every machine
state, the routine runs to completion and leaves at the destination pointer
the 16 bytes of the unpacked vector, changing no other byte; when masking is
enabled the write step is exactly the `doMaskWrite` sequence. -/
theorem nVifGen_routine_write (B : Build) (usn mask c : Nat) (st : RecState) (i : Nat)
    (hi : i < 16) (hT : B.nVifT i ≠ 0) :
    ((nVifGen B usn mask c st).nVifUpk (nVifIndex usn mask i c),
      nVifGenBlock B (VifUnpackNEON_Simple.ctor (usn != 0) (mask != 0) c) i) ∈
        (nVifGen B usn mask c st).blocks ∧
    nVifGenBlock B (VifUnpackNEON_Simple.ctor (usn != 0) (mask != 0) c) i =
      (VifUnpackNEON_Simple.ctor (usn != 0) (mask != 0) c).toVifUnpackNEON_Base.xUnpack B.a64 i ++
        (VifUnpackNEON_Simple.ctor (usn != 0) (mask != 0) c).xMovDest B.a64 B.nVifMask ++
        [.Ret] ∧
    (mask = 0 →
      (∀ ins ∈ (VifUnpackNEON_Simple.ctor (usn != 0) (mask != 0) c).xMovDest B.a64 B.nVifMask,
        ins.isLoad = false) ∧
      ∀ s : Machine, ∃ s1 s2,
        run ((VifUnpackNEON_Simple.ctor (usn != 0) (mask != 0) c).toVifUnpackNEON_Base.xUnpack
          B.a64 i) s = some s1 ∧
        run (nVifGenBlock B (VifUnpackNEON_Simple.ctor (usn != 0) (mask != 0) c) i) s = some s2 ∧
        (∀ j : Fin 16, s2.mem (dstIndirect.addr s + j) = (s1.q destReg).byte j) ∧
        (∀ p, (p < dstIndirect.addr s ∨ dstIndirect.addr s + 16 ≤ p) → s2.mem p = s.mem p)) ∧
    (mask ≠ 0 →
      (VifUnpackNEON_Simple.ctor (usn != 0) (mask != 0) c).xMovDest B.a64 B.nVifMask =
        (VifUnpackNEON_Simple.ctor (usn != 0) (mask != 0) c).doMaskWrite B.nVifMask destReg) := by
  refine ⟨nVifGen_records B usn mask c st i hi hT, rfl, fun hm => ?_, fun hm => ?_⟩
  · have hm0 : (mask != 0) = false := by simp [hm]
    rw [hm0]
    refine ⟨?_, fun s => ?_⟩
    · rw [simple_xMovDest]
      cases B.a64 <;> simp [Instr.isLoad]
    · obtain ⟨hret, s1, hrun, hx, hmem⟩ :=
        simple_xUnpack_runs B.a64 (usn != 0) false c i hi s
      have hd : dstIndirect.addr s1 = dstIndirect.addr s := by
        simp only [MemOperand.addr, dstIndirect, hx]
      refine ⟨s1, { s1 with mem := wr128 s1.mem (dstIndirect.addr s1) (s1.q destReg) },
        hrun, ?_, ?_⟩
      · show run (_ ++ _ ++ [Instr.Ret]) s = _
        rw [List.append_assoc, run_append _ _ _ hret, hrun, simple_xMovDest]
        exact run_unmasked_store B.a64 s1
      · simp only [hd, hmem]
        exact ⟨fun j => wr128_inside _ _ _ _ j.isLt,
          fun p hp => wr128_outside _ _ _ _ (by omega)⟩
  · have hm1 : (mask != 0) = true := by simp [hm]
    rw [hm1, simple_xMovDest]
    rfl

/-- Witness for C9: format 13 (V4-16), unsigned, unmasked, cycle phase 2. -/
theorem nVifGen_routine_write_witness :
    (13 : Nat) < 16 ∧
    sampleBuild.nVifT 13 ≠ 0 ∧
    (((nVifGen sampleBuild 1 0 2 sampleRec).nVifUpk (nVifIndex 1 0 13 2),
      nVifGenBlock sampleBuild (VifUnpackNEON_Simple.ctor (1 != 0) (0 != 0) 2) 13) ∈
        (nVifGen sampleBuild 1 0 2 sampleRec).blocks ∧
    nVifGenBlock sampleBuild (VifUnpackNEON_Simple.ctor (1 != 0) (0 != 0) 2) 13 =
      (VifUnpackNEON_Simple.ctor (1 != 0) (0 != 0) 2).toVifUnpackNEON_Base.xUnpack sampleBuild.a64
          13 ++
        (VifUnpackNEON_Simple.ctor (1 != 0) (0 != 0) 2).xMovDest sampleBuild.a64
            sampleBuild.nVifMask ++
        [.Ret] ∧
    (0 = 0 →
      (∀ ins ∈ (VifUnpackNEON_Simple.ctor (1 != 0) (0 != 0) 2).xMovDest sampleBuild.a64
          sampleBuild.nVifMask,
        ins.isLoad = false) ∧
      ∀ s : Machine, ∃ s1 s2,
        run ((VifUnpackNEON_Simple.ctor (1 != 0) (0 != 0) 2).toVifUnpackNEON_Base.xUnpack
          sampleBuild.a64 13) s = some s1 ∧
        run (nVifGenBlock sampleBuild (VifUnpackNEON_Simple.ctor (1 != 0) (0 != 0) 2) 13) s = some
            s2 ∧
        (∀ j : Fin 16, s2.mem (dstIndirect.addr s + j) = (s1.q destReg).byte j) ∧
        (∀ p, (p < dstIndirect.addr s ∨ dstIndirect.addr s + 16 ≤ p) → s2.mem p = s.mem p)) ∧
    (0 ≠ 0 →
      (VifUnpackNEON_Simple.ctor (1 != 0) (0 != 0) 2).xMovDest sampleBuild.a64 sampleBuild.nVifMask
          =
        (VifUnpackNEON_Simple.ctor (1 != 0) (0 != 0) 2).doMaskWrite sampleBuild.nVifMask destReg))
            :=
  ⟨by decide, by decide,
    nVifGen_routine_write sampleBuild 1 0 2 sampleRec 13 (by decide) (by decide)⟩

theorem simple_scalar_unpack (a64 usn_ domask_ : Bool) (c id : Nat) (hid : id ≤ 2)
    (s : Machine) :
    (∃ ins ∈ (VifUnpackNEON_Simple.ctor usn_ domask_ c).toVifUnpackNEON_Base.xUnpack a64 id,
      ins.isLoadFrom RXARG2 = true) ∧
    run ((VifUnpackNEON_Simple.ctor usn_ domask_ c).toVifUnpackNEON_Base.xUnpack a64 id) s =
      some ((s.setQ workReg
        (if id = 0 then rd128 s.mem (srcIndirect.addr s)
         else if id = 1 then src16x4 usn_ s.mem (srcIndirect.addr s)
         else src8x4 usn_ s.mem (srcIndirect.addr s))).setQ destReg
        (if id = 0 then
          ⟨rd32 s.mem (srcIndirect.addr s), rd32 s.mem (srcIndirect.addr s),
            rd32 s.mem (srcIndirect.addr s), rd32 s.mem (srcIndirect.addr s)⟩
         else if id = 1 then
          ⟨ext16 usn_ (rd16 s.mem (srcIndirect.addr s)), ext16 usn_ (rd16 s.mem (srcIndirect.addr
              s)),
            ext16 usn_ (rd16 s.mem (srcIndirect.addr s)), ext16 usn_ (rd16 s.mem (srcIndirect.addr
                s))⟩
         else
          ⟨ext8 usn_ (rd8 s.mem (srcIndirect.addr s)), ext8 usn_ (rd8 s.mem (srcIndirect.addr s)),
            ext8 usn_ (rd8 s.mem (srcIndirect.addr s)), ext8 usn_ (rd8 s.mem (srcIndirect.addr
                s))⟩)) := by
  interval_cases id
  · cases a64 <;>
      simp [VifUnpackNEON_Base.xUnpack, VifUnpackNEON_Base.xUPK_S_32,
        VifUnpackNEON_Base.dupSwitch, VifUnpackNEON_Simple.ctor, run, exec, Instr.isLoadFrom,
        srcIndirect, RXARG2, workReg, destReg, V128.lane, rd128, MemOperand.addr]
  · have hcode : (VifUnpackNEON_Simple.ctor usn_ domask_ c).toVifUnpackNEON_Base.xUnpack a64
        ((1 : Nat) : Int) =
        (VifUnpackNEON_Simple.ctor usn_ domask_ c).toVifUnpackNEON_Base.xPMOVXX16 a64 workReg ++
          [.Dup4S destReg workReg 0] := by
      simp [VifUnpackNEON_Base.xUnpack, VifUnpackNEON_Base.xUPK_S_16,
        VifUnpackNEON_Base.dupSwitch, VifUnpackNEON_Simple.ctor]
    rw [hcode, run_append _ _ _ (xPMOVXX16_no_ret _ _ _), run_xPMOVXX16]
    refine ⟨?_, ?_⟩
    · cases a64 <;> cases usn_ <;>
        simp [VifUnpackNEON_Base.xPMOVXX16, VifUnpackNEON_Simple.ctor, Instr.isLoadFrom,
          srcIndirect, RXARG2]
    · simp [run, exec, workReg, destReg, V128.lane, src16x4, VifUnpackNEON_Simple.ctor]
  · have hcode : (VifUnpackNEON_Simple.ctor usn_ domask_ c).toVifUnpackNEON_Base.xUnpack a64
        ((2 : Nat) : Int) =
        (VifUnpackNEON_Simple.ctor usn_ domask_ c).toVifUnpackNEON_Base.xPMOVXX8 a64 workReg ++
          [.Dup4S destReg workReg 0] := by
      simp [VifUnpackNEON_Base.xUnpack, VifUnpackNEON_Base.xUPK_S_8,
        VifUnpackNEON_Base.dupSwitch, VifUnpackNEON_Simple.ctor]
    rw [hcode, run_append _ _ _ (xPMOVXX8_no_ret _ _ _), run_xPMOVXX8]
    refine ⟨?_, ?_⟩
    · cases a64 <;> cases usn_ <;>
        simp [VifUnpackNEON_Base.xPMOVXX8, VifUnpackNEON_Simple.ctor, Instr.isLoadFrom,
          srcIndirect, RXARG2]
    · simp [run, exec, workReg, destReg, V128.lane, src8x4, VifUnpackNEON_Simple.ctor]

/-- C3 (as amended): for every scalar format (ids 0, 1, 2), both signedness
settings, both mask settings and every cycle phase `c`, the handler that
`nVifGen` records for phase `c` begins with the scalar unpack sequence, which
contains the source-memory load at every phase and broadcasts sub-element 0
of the loaded group into all 4 lanes of the destination register. -/
theorem scalar_handler_broadcasts_first (B : Build) (usn mask c : Nat) (st : RecState)
    (id : Nat) (hid : id ≤ 2) (hT : B.nVifT id ≠ 0) :
    ((nVifGen B usn mask c st).nVifUpk (nVifIndex usn mask id c),
      nVifGenBlock B (VifUnpackNEON_Simple.ctor (usn != 0) (mask != 0) c) id) ∈
        (nVifGen B usn mask c st).blocks ∧
    nVifGenBlock B (VifUnpackNEON_Simple.ctor (usn != 0) (mask != 0) c) id =
      (VifUnpackNEON_Simple.ctor (usn != 0) (mask != 0) c).toVifUnpackNEON_Base.xUnpack
          B.a64 id ++
        (VifUnpackNEON_Simple.ctor (usn != 0) (mask != 0) c).xMovDest B.a64 B.nVifMask ++
        [.Ret] ∧
    (∃ ins ∈ (VifUnpackNEON_Simple.ctor (usn != 0) (mask != 0) c).toVifUnpackNEON_Base.xUnpack
        B.a64 id, ins.isLoadFrom RXARG2 = true) ∧
    ∀ s : Machine, ∃ s1,
      run ((VifUnpackNEON_Simple.ctor (usn != 0) (mask != 0) c).toVifUnpackNEON_Base.xUnpack
        B.a64 id) s = some s1 ∧
      (id = 0 → s1.q destReg =
        ⟨rd32 s.mem (srcIndirect.addr s), rd32 s.mem (srcIndirect.addr s),
          rd32 s.mem (srcIndirect.addr s), rd32 s.mem (srcIndirect.addr s)⟩) ∧
      (id = 1 → s1.q destReg =
        ⟨ext16 (usn != 0) (rd16 s.mem (srcIndirect.addr s)),
          ext16 (usn != 0) (rd16 s.mem (srcIndirect.addr s)),
          ext16 (usn != 0) (rd16 s.mem (srcIndirect.addr s)),
          ext16 (usn != 0) (rd16 s.mem (srcIndirect.addr s))⟩) ∧
      (id = 2 → s1.q destReg =
        ⟨ext8 (usn != 0) (rd8 s.mem (srcIndirect.addr s)),
          ext8 (usn != 0) (rd8 s.mem (srcIndirect.addr s)),
          ext8 (usn != 0) (rd8 s.mem (srcIndirect.addr s)),
          ext8 (usn != 0) (rd8 s.mem (srcIndirect.addr s))⟩) := by
  refine ⟨nVifGen_records B usn mask c st id (by omega) hT, rfl,
    (simple_scalar_unpack B.a64 _ _ c id hid sampleMachine).1, fun s => ⟨_,
      (simple_scalar_unpack B.a64 _ _ c id hid s).2, ?_, ?_, ?_⟩⟩
  all_goals
    intro h
    subst h
    simp

/-- Witness for the amended C3: format 1 (S-16), signed, masked, cycle phase 3. -/
theorem scalar_handler_broadcasts_first_witness :
    (1 : Nat) ≤ 2 ∧
    sampleBuild.nVifT 1 ≠ 0 ∧
    (((nVifGen sampleBuild 0 1 3 sampleRec).nVifUpk (nVifIndex 0 1 1 3),
      nVifGenBlock sampleBuild (VifUnpackNEON_Simple.ctor (0 != 0) (1 != 0) 3) 1) ∈
        (nVifGen sampleBuild 0 1 3 sampleRec).blocks ∧
    nVifGenBlock sampleBuild (VifUnpackNEON_Simple.ctor (0 != 0) (1 != 0) 3) 1 =
      (VifUnpackNEON_Simple.ctor (0 != 0) (1 != 0) 3).toVifUnpackNEON_Base.xUnpack
          sampleBuild.a64 1 ++
        (VifUnpackNEON_Simple.ctor (0 != 0) (1 != 0) 3).xMovDest sampleBuild.a64
            sampleBuild.nVifMask ++
        [.Ret] ∧
    (∃ ins ∈ (VifUnpackNEON_Simple.ctor (0 != 0) (1 != 0) 3).toVifUnpackNEON_Base.xUnpack
        sampleBuild.a64 1, ins.isLoadFrom RXARG2 = true) ∧
    ∀ s : Machine, ∃ s1,
      run ((VifUnpackNEON_Simple.ctor (0 != 0) (1 != 0) 3).toVifUnpackNEON_Base.xUnpack
        sampleBuild.a64 1) s = some s1 ∧
      (1 = 0 → s1.q destReg =
        ⟨rd32 s.mem (srcIndirect.addr s), rd32 s.mem (srcIndirect.addr s),
          rd32 s.mem (srcIndirect.addr s), rd32 s.mem (srcIndirect.addr s)⟩) ∧
      (1 = 1 → s1.q destReg =
        ⟨ext16 (0 != 0) (rd16 s.mem (srcIndirect.addr s)),
          ext16 (0 != 0) (rd16 s.mem (srcIndirect.addr s)),
          ext16 (0 != 0) (rd16 s.mem (srcIndirect.addr s)),
          ext16 (0 != 0) (rd16 s.mem (srcIndirect.addr s))⟩) ∧
      (1 = 2 → s1.q destReg =
        ⟨ext8 (0 != 0) (rd8 s.mem (srcIndirect.addr s)),
          ext8 (0 != 0) (rd8 s.mem (srcIndirect.addr s)),
          ext8 (0 != 0) (rd8 s.mem (srcIndirect.addr s)),
          ext8 (0 != 0) (rd8 s.mem (srcIndirect.addr s))⟩)) :=
  ⟨by decide, by decide,
    scalar_handler_broadcasts_first sampleBuild 0 1 3 sampleRec 1 (by decide) (by decide)⟩

/-- Counterexample to C3 as stated: the handler recorded for the scalar format
0 at cycle phase 1 contains the source load `Ldr q1, [x1]`, and on the sample
state, whose source group is `[0x838281FF, 0x87868584, ...]`, it broadcasts
sub-element 0 and not sub-element 1. -/
theorem scalar_phase1_counterexample :
    ((nVifGen sampleBuild 0 0 1 sampleRec).nVifUpk (nVifIndex 0 0 0 1),
      nVifGenBlock sampleBuild (VifUnpackNEON_Simple.ctor false false 1) 0) ∈
        (nVifGen sampleBuild 0 0 1 sampleRec).blocks ∧
    Instr.LdrQ workReg srcIndirect ∈
      nVifGenBlock sampleBuild (VifUnpackNEON_Simple.ctor false false 1) 0 ∧
    (Instr.LdrQ workReg srcIndirect).isLoadFrom RXARG2 = true ∧
    rd128 sampleMachine.mem (srcIndirect.addr sampleMachine) =
      ⟨2206368255, 2273740164, 2341112200, 2408484236⟩ ∧
    ∃ s', run (nVifGenBlock sampleBuild (VifUnpackNEON_Simple.ctor false false 1) 0)
        sampleMachine = some s' ∧
      s'.q destReg = ⟨2206368255, 2206368255, 2206368255, 2206368255⟩ ∧
      rd128 s'.mem (dstIndirect.addr sampleMachine) =
        ⟨2206368255, 2206368255, 2206368255, 2206368255⟩ ∧
      (s'.q destReg).lane 0 ≠
        (rd128 sampleMachine.mem (srcIndirect.addr sampleMachine)).lane 1 := by
  refine ⟨nVifGen_records sampleBuild 0 0 1 sampleRec 0 (by decide) (by decide), by decide,
    by decide, by decide, ?_⟩
  simp [nVifGenBlock, VifUnpackNEON_Base.xUnpack, VifUnpackNEON_Base.xUPK_S_32,
    VifUnpackNEON_Simple.xMovDest, VifUnpackNEON_Base.xMovDest, VifUnpackNEON_Simple.ctor,
    sampleBuild, run, exec, destReg, workReg, V128.lane]
  refine ⟨?_, ?_, ?_⟩ <;> decide

/-! ## Scalar formats -/

theorem dupSwitch_eq (g : VifUnpackNEON_Base) (k : Nat) (hk : k ≤ 3)
    (hIt : g.UnpkLoopIteration = k) :
    g.dupSwitch = [.Dup4S destReg workReg k] := by
  interval_cases k <;> simp [VifUnpackNEON_Base.dupSwitch, hIt]

theorem run_dup4S (s : Machine) (k : Nat) (hk : k ≤ 3) :
    run [.Dup4S destReg workReg k] s =
      some (s.setQ destReg ⟨(s.q workReg).lane k, (s.q workReg).lane k,
        (s.q workReg).lane k, (s.q workReg).lane k⟩) := by
  interval_cases k <;> simp [run, exec]

/-- C11: for the scalar generators `xUPK_S_32`, `xUPK_S_16` and `xUPK_S_8` with
iteration index `k` in 0..3, the emitted code runs to completion with lane
`k` of the work register `[v0, v1, v2, v3]` in all four lanes of the
destination register; the code contains a load exactly when `k = 0`, in which
case the work register receives the (extended) source elements, and for `k`
in 1..3 the work register is kept unchanged. -/
theorem xUPK_S_broadcast (a64 : Bool) (g : VifUnpackNEON_Base) (k : Nat) (hk : k ≤ 3)
    (hIt : g.UnpkLoopIteration = k) (hIn : g.IsInputMasked = false) (s : Machine) :
    ScalarOutcome (g.xUPK_S_32 a64) (rd128 s.mem (srcIndirect.addr s)) k s ∧
    ScalarOutcome (g.xUPK_S_16 a64) (src16x4 g.usn s.mem (srcIndirect.addr s)) k s ∧
    ScalarOutcome (g.xUPK_S_8 a64) (src8x4 g.usn s.mem (srcIndirect.addr s)) k s := by
  have hd := dupSwitch_eq g k hk hIt
  by_cases h0 : k = 0
  · subst h0
    have hIt0 : g.UnpkLoopIteration = 0 := by simpa using hIt
    refine ⟨?_, ?_, ?_⟩
    · cases a64 <;>
        simp [ScalarOutcome, VifUnpackNEON_Base.xUPK_S_32, hIt0, hIn,
          VifUnpackNEON_Base.dupSwitch, run, exec, Instr.isLoad, Instr.isLoadFrom, srcIndirect,
          RXARG2, workReg, destReg, V128.lane]
    · have hcode : g.xUPK_S_16 a64 = g.xPMOVXX16 a64 workReg ++ [.Dup4S destReg workReg 0] := by
        simp [VifUnpackNEON_Base.xUPK_S_16, hIt0, hIn, VifUnpackNEON_Base.dupSwitch]
      rw [ScalarOutcome, hcode, run_append _ _ _ (xPMOVXX16_no_ret _ _ _), run_xPMOVXX16]
      refine ⟨?_, ?_, ?_⟩
      · cases a64 <;> cases hu : g.usn <;>
          simp [VifUnpackNEON_Base.xPMOVXX16, hu, Instr.isLoadFrom, srcIndirect, RXARG2]
      · cases a64 <;> cases hu : g.usn <;>
          simp [VifUnpackNEON_Base.xPMOVXX16, hu, Instr.isLoad]
      · simp [run, exec, workReg, destReg, V128.lane]
    · have hcode : g.xUPK_S_8 a64 = g.xPMOVXX8 a64 workReg ++ [.Dup4S destReg workReg 0] := by
        simp [VifUnpackNEON_Base.xUPK_S_8, hIt0, hIn, VifUnpackNEON_Base.dupSwitch]
      rw [ScalarOutcome, hcode, run_append _ _ _ (xPMOVXX8_no_ret _ _ _), run_xPMOVXX8]
      refine ⟨?_, ?_, ?_⟩
      · cases a64 <;> cases hu : g.usn <;>
          simp [VifUnpackNEON_Base.xPMOVXX8, hu, Instr.isLoadFrom, srcIndirect, RXARG2]
      · cases a64 <;> cases hu : g.usn <;>
          simp [VifUnpackNEON_Base.xPMOVXX8, hu, Instr.isLoad]
      · simp [run, exec, workReg, destReg, V128.lane]
  · have hItn : g.UnpkLoopIteration ≠ 0 := by
      rw [hIt]; exact_mod_cast h0
    have h32 : g.xUPK_S_32 a64 = [.Dup4S destReg workReg k] := by
      cases a64 <;> simp [VifUnpackNEON_Base.xUPK_S_32, hIn, hd, hIt, h0]
    have h16 : g.xUPK_S_16 a64 = [.Dup4S destReg workReg k] := by
      simp [VifUnpackNEON_Base.xUPK_S_16, hItn, hIn, hd]
    have h8 : g.xUPK_S_8 a64 = [.Dup4S destReg workReg k] := by
      simp [VifUnpackNEON_Base.xUPK_S_8, hItn, hIn, hd]
    have hout : ∀ loaded, ScalarOutcome [.Dup4S destReg workReg k] loaded k s := by
      intro loaded
      rw [ScalarOutcome, run_dup4S s k hk]
      simp [h0, Instr.isLoad, Instr.isLoadFrom, workReg, destReg]
    rw [h32, h16, h8]
    exact ⟨hout _, hout _, hout _⟩

/-- Witness for C11: iteration index 2. -/
theorem xUPK_S_broadcast_witness :
    (2 : Nat) ≤ 3 ∧
    (sampleBase false 2 1).UnpkLoopIteration = ((2 : Nat) : Int) ∧
    (sampleBase false 2 1).IsInputMasked = false ∧
    (ScalarOutcome ((sampleBase false 2 1).xUPK_S_32 true) (rd128 sampleMachine.mem
        (srcIndirect.addr sampleMachine)) 2 sampleMachine ∧
    ScalarOutcome ((sampleBase false 2 1).xUPK_S_16 true) (src16x4 (sampleBase false 2 1).usn
        sampleMachine.mem (srcIndirect.addr sampleMachine)) 2 sampleMachine ∧
    ScalarOutcome ((sampleBase false 2 1).xUPK_S_8 true) (src8x4 (sampleBase false 2 1).usn
        sampleMachine.mem (srcIndirect.addr sampleMachine)) 2 sampleMachine) :=
  ⟨by decide, rfl, rfl,
    xUPK_S_broadcast true (sampleBase false 2 1) 2 (by decide) rfl rfl sampleMachine⟩

/-! ## Equivalent instruction sequences -/

/-- C17: for every generator state and machine state, hence for every 16-bit
source word, the bitfield-extract sequence of `xUPK_V4_5` (used when
`__aarch64__` is defined) and the shift sequence (used otherwise) both run to
completion and leave the same 4-lane result in the destination register and
the same memory. -/
theorem xUPK_V4_5_sequences_agree (g : VifUnpackNEON_Base) (s : Machine) :
    ∃ s1 s2, run (g.xUPK_V4_5 true) s = some s1 ∧ run (g.xUPK_V4_5 false) s = some s2 ∧
      s1.q destReg = s2.q destReg ∧ s1.mem = s2.mem := by
  cases hIn : g.IsInputMasked
  · obtain ⟨s1, h1, q1⟩ := xUPK_V4_5_run true g hIn s _ rfl
    obtain ⟨s2, h2, q2⟩ := xUPK_V4_5_run false g hIn s _ rfl
    refine ⟨s1, s2, h1, h2, q1.trans q2.symm, ?_⟩
    have m1 : run (g.xUPK_V4_5 true) s = some s1 → s1.mem = s.mem := by
      simp [VifUnpackNEON_Base.xUPK_V4_5, hIn, run, exec, workGprW]
      intro h; subst h; simp
    have m2 : run (g.xUPK_V4_5 false) s = some s2 → s2.mem = s.mem := by
      simp [VifUnpackNEON_Base.xUPK_V4_5, hIn, run, exec, workGprW]
      intro h; subst h; simp
    rw [m1 h1, m2 h2]
  · exact ⟨s, s, by simp [VifUnpackNEON_Base.xUPK_V4_5, hIn, run],
      by simp [VifUnpackNEON_Base.xUPK_V4_5, hIn, run], rfl, rfl⟩

/-- C18: `xPMOVXX8` leaves in lane `i` of its register the `i`-th of the 4
source bytes extended directly from 8 to 32 bits, and `xPMOVXX16` the `i`-th
of the 4 source halfwords extended to 32 bits, zero-extended when `usn` holds
and sign-extended otherwise; on the destination register both have exactly
the effect of the inline sequences of `xUPK_V4_8` and `xUPK_V4_16`. -/
theorem xPMOVXX_lanes (a64 : Bool) (g : VifUnpackNEON_Base) (regX : Nat) (s : Machine) :
    (∃ s', run (g.xPMOVXX8 a64 regX) s = some s' ∧
      ∀ i : Fin 4, (s'.q regX).lane i =
        if g.usn then rd8 s.mem (srcIndirect.addr s + i)
        else sext8to32 (rd8 s.mem (srcIndirect.addr s + i))) ∧
    (∃ s', run (g.xPMOVXX16 a64 regX) s = some s' ∧
      ∀ i : Fin 4, (s'.q regX).lane i =
        if g.usn then rd16 s.mem (srcIndirect.addr s + 2 * i)
        else sext16to32 (rd16 s.mem (srcIndirect.addr s + 2 * i))) ∧
    (g.IsInputMasked = false →
      run (g.xUPK_V4_8 true) s = run (g.xPMOVXX8 a64 destReg) s ∧
      run (g.xUPK_V4_16 true) s = run (g.xPMOVXX16 a64 destReg) s) := by
  refine ⟨⟨_, run_xPMOVXX8 a64 g regX s, ?_⟩, ⟨_, run_xPMOVXX16 a64 g regX s, ?_⟩, fun hIn => ?_⟩
  · intro i
    fin_cases i <;> simp [src8x4, ext8, V128.lane]
  · intro i
    fin_cases i <;> simp [src16x4, ext16, V128.lane]
  · rw [run_xPMOVXX8, run_xPMOVXX16, ← run_xPMOVXX8 true, ← run_xPMOVXX16 true]
    cases hu : g.usn <;>
      simp [VifUnpackNEON_Base.xUPK_V4_8, VifUnpackNEON_Base.xUPK_V4_16,
        VifUnpackNEON_Base.xPMOVXX8, VifUnpackNEON_Base.xPMOVXX16, hIn, hu]

/-! ## Straight-line routines -/

theorem not_isBranch_of_ne_ret (i : Instr) (h : i ≠ .Ret) : i.isBranch = false := by
  cases i <;> simp [Instr.isBranch] at h ⊢

theorem simple_xMovDest_no_ret (a64 : Bool) (nVifMask : Nat) (usn_ domask_ : Bool) (c : Nat) :
    Instr.Ret ∉ (VifUnpackNEON_Simple.ctor usn_ domask_ c).xMovDest a64 nVifMask := by
  rw [simple_xMovDest]
  cases domask_ <;> cases a64 <;> simp [VifUnpackNEON_Simple.doMaskWrite]

theorem nVifGenStep_blocks (B : Build) (u m c : Nat) (g : VifUnpackNEON_Simple)
    (st : RecState) (i : Nat) :
    ∀ b ∈ (nVifGenStep B u m c g st i).blocks,
      b ∈ st.blocks ∨ (B.nVifT i ≠ 0 ∧ b.2 = nVifGenBlock B g i) := by
  intro b hb
  unfold nVifGenStep at hb
  by_cases hT : B.nVifT i = 0
  · simp only [hT, if_true] at hb
    exact Or.inl hb
  · simp only [hT, if_false, List.mem_append, List.mem_singleton] at hb
    rcases hb with hb | hb
    · exact Or.inl hb
    · exact Or.inr ⟨hT, by rw [hb]⟩

theorem foldl_nVifGenStep_blocks (B : Build) (u m c : Nat) (g : VifUnpackNEON_Simple)
    (l : List Nat) :
    ∀ st : RecState, ∀ b ∈ (l.foldl (nVifGenStep B u m c g) st).blocks,
      b ∈ st.blocks ∨ ∃ i ∈ l, B.nVifT i ≠ 0 ∧ b.2 = nVifGenBlock B g i := by
  induction l with
  | nil => intro st b hb; exact Or.inl hb
  | cons a l ih =>
    intro st b hb
    rcases ih (nVifGenStep B u m c g st a) b hb with h | ⟨i, hi, h⟩
    · rcases nVifGenStep_blocks B u m c g st a b h with h | h
      · exact Or.inl h
      · exact Or.inr ⟨a, by simp, h⟩
    · exact Or.inr ⟨i, by simp [hi], h⟩

/-- C12: for every signedness, mask setting, cycle phase and format id, the
routine `nVifGen` emits is a straight-line sequence: it is a body without any
control-transfer instruction followed by a single `Ret`; and every block that
a call of `nVifGen` adds to the code region has that shape. -/
theorem nVifGen_routines_straight_line (B : Build) (usn mask c : Nat) (st : RecState) :
    (∀ i, i < 16 → ∃ body,
      nVifGenBlock B (VifUnpackNEON_Simple.ctor (usn != 0) (mask != 0) c) i = body ++ [.Ret] ∧
      ∀ ins ∈ body, ins.isBranch = false) ∧
    ∀ b ∈ (nVifGen B usn mask c st).blocks, b ∈ st.blocks ∨
      ∃ body, b.2 = body ++ [.Ret] ∧ ∀ ins ∈ body, ins.isBranch = false := by
  have h1 : ∀ i, i < 16 → ∃ body,
      nVifGenBlock B (VifUnpackNEON_Simple.ctor (usn != 0) (mask != 0) c) i = body ++ [.Ret] ∧
      ∀ ins ∈ body, ins.isBranch = false := by
    intro i hi
    refine ⟨_, rfl, fun ins hins => not_isBranch_of_ne_ret ins (fun e => ?_)⟩
    subst e
    rcases List.mem_append.mp hins with h | h
    · exact (simple_xUnpack_runs B.a64 _ _ c i hi sampleMachine).1 h
    · exact simple_xMovDest_no_ret B.a64 B.nVifMask _ _ c h
  refine ⟨h1, fun b hb => ?_⟩
  rcases foldl_nVifGenStep_blocks B usn mask c _ (List.range 16) _ b hb with h | ⟨i, hi, _, h⟩
  · exact Or.inl h
  · obtain ⟨body, hb1, hb2⟩ := h1 i (List.mem_range.mp hi)
    exact Or.inr ⟨body, by rw [h, hb1], hb2⟩

/-! ## Reserved ids and the zero-fill of the simple generator -/

theorem nVifGenStep_reserved (B : Build) (u m c : Nat) (g : VifUnpackNEON_Simple)
    (st : RecState) (i : Nat) (hT : B.nVifT i = 0) :
    nVifGenStep B u m c g st i =
      { st with nVifUpk := setEntry st.nVifUpk (nVifIndex u m i c) 0 } := by
  simp [nVifGenStep, hT]

theorem foldl_nVifGenStep_null (B : Build) (u m c : Nat) (g : VifUnpackNEON_Simple)
    (l : List Nat) (hnd : l.Nodup) :
    ∀ st : RecState, ∀ i ∈ l, B.nVifT i = 0 →
      (l.foldl (nVifGenStep B u m c g) st).nVifUpk (nVifIndex u m i c) = 0 := by
  induction l with
  | nil => intro st i hi; cases hi
  | cons a l ih =>
    intro st i hi hT
    rw [List.nodup_cons] at hnd
    rw [List.foldl_cons]
    rcases List.mem_cons.mp hi with rfl | hi
    · rw [(foldl_nVifGenStep_keep B u m c g l (nVifGenStep B u m c g st i)).2 _
        (fun j hj e => hnd.1 (by rw [nVifIndex_inj u m c i j e]; exact hj)),
        nVifGenStep_reserved B u m c g st i hT]
      simp [setEntry]
    · exact ih hnd.2 _ i hi hT

/-- C13: for each reserved id 3, 7 and 11 and every generator state, `xUnpack`
emits no instruction and logs the warning; in the build pass, with `nVifT`
zero at the id, the loop iteration of `nVifGen` leaves the write cursor, the
code region and the emission trace unchanged and stores null in the table
entry, which is still null when `nVifGen` returns. -/
theorem reserved_ids_emit_nothing (a64 : Bool) (g : VifUnpackNEON_Base) (B : Build)
    (usn mask c : Nat) (vpugen : VifUnpackNEON_Simple) (st : RecState) (i : Nat)
    (hi : i = 3 ∨ i = 7 ∨ i = 11) (hT : B.nVifT i = 0) :
    g.xUnpack a64 i = [] ∧
    VifUnpackNEON_Base.xUnpackWarning i = ["Vpu/Vif: Invalid Unpack"] ∧
    (nVifGenStep B usn mask c vpugen st i).armAsmPtr = st.armAsmPtr ∧
    (nVifGenStep B usn mask c vpugen st i).blocks = st.blocks ∧
    (nVifGenStep B usn mask c vpugen st i).trace = st.trace ∧
    (nVifGenStep B usn mask c vpugen st i).nVifUpk (nVifIndex usn mask i c) = 0 ∧
    (nVifGen B usn mask c st).nVifUpk (nVifIndex usn mask i c) = 0 := by
  have hi16 : i < 16 := by omega
  refine ⟨?_, ?_, ?_, ?_, ?_, ?_, ?_⟩
  · rcases hi with rfl | rfl | rfl <;> simp [VifUnpackNEON_Base.xUnpack]
  · rcases hi with rfl | rfl | rfl <;> simp [VifUnpackNEON_Base.xUnpackWarning]
  · rw [nVifGenStep_reserved _ _ _ _ _ _ _ hT]
  · rw [nVifGenStep_reserved _ _ _ _ _ _ _ hT]
  · rw [nVifGenStep_reserved _ _ _ _ _ _ _ hT]
  · rw [nVifGenStep_reserved _ _ _ _ _ _ _ hT]; simp [setEntry]
  · exact foldl_nVifGenStep_null B usn mask c _ (List.range 16) (List.nodup_range 16) _ i
      (List.mem_range.mpr hi16) hT

/-- Witness for C13: the reserved id 7 in the sample build. -/
theorem reserved_ids_emit_nothing_witness :
    ((7 : Nat) = 3 ∨ (7 : Nat) = 7 ∨ (7 : Nat) = 11) ∧
    sampleBuild.nVifT 7 = 0 ∧
    ((sampleBase false 0 1).xUnpack true 7 = [] ∧
    VifUnpackNEON_Base.xUnpackWarning 7 = ["Vpu/Vif: Invalid Unpack"] ∧
    (nVifGenStep sampleBuild 1 0 2 (VifUnpackNEON_Simple.ctor true false 2) sampleRec 7).armAsmPtr
        = sampleRec.armAsmPtr ∧
    (nVifGenStep sampleBuild 1 0 2 (VifUnpackNEON_Simple.ctor true false 2) sampleRec 7).blocks =
        sampleRec.blocks ∧
    (nVifGenStep sampleBuild 1 0 2 (VifUnpackNEON_Simple.ctor true false 2) sampleRec 7).trace =
        sampleRec.trace ∧
    (nVifGenStep sampleBuild 1 0 2 (VifUnpackNEON_Simple.ctor true false 2) sampleRec 7).nVifUpk
        (nVifIndex 1 0 7 2) = 0 ∧
    (nVifGen sampleBuild 1 0 2 sampleRec).nVifUpk (nVifIndex 1 0 7 2) = 0) :=
  ⟨by decide, by decide,
    reserved_ids_emit_nothing true (sampleBase false 0 1) sampleBuild 1 0 2
        (VifUnpackNEON_Simple.ctor true false 2) sampleRec 7 (by decide) (by decide)⟩

theorem land_0_1 : Int.land 0 1 = 0 := by decide

theorem land_4_3 : Int.land 4 3 = 0 := by decide

theorem simple_V3_16_result (usn_ domask_ : Bool) (c : Nat) :
    (VifUnpackNEON_Simple.ctor usn_ domask_ c).toVifUnpackNEON_Base.V3_16_result = 0 := by
  simp [VifUnpackNEON_Base.V3_16_result, VifUnpackNEON_Simple.ctor, land_4_3]

/-- C16: the simple generator has iteration index 0 and alignment marker 1, the
V3-16 boundary value `((0/4 + 1 + (4 - 1)) & 3)` is 0, and therefore, for every
signedness, mask setting and cycle phase, the handler that `nVifGen` records
for the formats 4 (V2-32), 8 (V3-32), 9 (V3-16) and 10 (V3-8) contains the
lane-3 zeroing instruction and leaves 0 in lane 3 of the unpacked vector. -/
theorem simple_handlers_zero_lane3 (B : Build) (usn mask c : Nat) (st : RecState) (id : Nat)
    (hid : id = 4 ∨ id = 8 ∨ id = 9 ∨ id = 10) (hT : B.nVifT id ≠ 0) :
    (VifUnpackNEON_Simple.ctor (usn != 0) (mask != 0) c).UnpkLoopIteration = 0 ∧
    (VifUnpackNEON_Simple.ctor (usn != 0) (mask != 0) c).IsAligned = 1 ∧
    ((0 / 4 + 1 + (4 - 1)) &&& 3 = 0) ∧
    (VifUnpackNEON_Simple.ctor (usn != 0) (mask != 0) c).toVifUnpackNEON_Base.V3_16_result = 0 ∧
    ((nVifGen B usn mask c st).nVifUpk (nVifIndex usn mask id c),
      nVifGenBlock B (VifUnpackNEON_Simple.ctor (usn != 0) (mask != 0) c) id) ∈
        (nVifGen B usn mask c st).blocks ∧
    nVifGenBlock B (VifUnpackNEON_Simple.ctor (usn != 0) (mask != 0) c) id =
      (VifUnpackNEON_Simple.ctor (usn != 0) (mask != 0) c).toVifUnpackNEON_Base.xUnpack
          B.a64 id ++
        (VifUnpackNEON_Simple.ctor (usn != 0) (mask != 0) c).xMovDest B.a64 B.nVifMask ++
        [.Ret] ∧
    zeroLane3 ∈
      (VifUnpackNEON_Simple.ctor (usn != 0) (mask != 0) c).toVifUnpackNEON_Base.xUnpack
        B.a64 id ∧
    ∀ s : Machine, ∃ s1,
      run ((VifUnpackNEON_Simple.ctor (usn != 0) (mask != 0) c).toVifUnpackNEON_Base.xUnpack
        B.a64 id) s = some s1 ∧ (s1.q destReg).lane 3 = 0 := by
  have hid16 : id < 16 := by omega
  refine ⟨rfl, rfl, by decide, simple_V3_16_result _ _ c, nVifGen_records B usn mask c st id hid16
      hT, rfl,
    ?_, fun s => ?_⟩
  · rcases hid with rfl | rfl | rfl | rfl <;> cases B.a64 <;> cases (usn != 0) <;>
      simp [VifUnpackNEON_Base.xUnpack, VifUnpackNEON_Base.xUPK_V2_32,
        VifUnpackNEON_Base.xUPK_V3_32, VifUnpackNEON_Base.xUPK_V3_16,
        VifUnpackNEON_Base.xUPK_V3_8, VifUnpackNEON_Base.xPMOVXX16,
        VifUnpackNEON_Base.xPMOVXX8, VifUnpackNEON_Base.V3_16_result,
        VifUnpackNEON_Simple.ctor, zeroLane3, land_0_1, land_4_3]
  · rcases hid with rfl | rfl | rfl | rfl <;> cases B.a64 <;> cases (usn != 0) <;>
      simp [VifUnpackNEON_Base.xUnpack, VifUnpackNEON_Base.xUPK_V2_32,
        VifUnpackNEON_Base.xUPK_V3_32, VifUnpackNEON_Base.xUPK_V3_16,
        VifUnpackNEON_Base.xUPK_V3_8, VifUnpackNEON_Base.xPMOVXX16,
        VifUnpackNEON_Base.xPMOVXX8, VifUnpackNEON_Base.V3_16_result,
        VifUnpackNEON_Simple.ctor, run, exec, destReg, workReg, V128.lane, V128.setLane,
        Machine.rdW, wzr, land_0_1, land_4_3]

/-- Witness for C16: format 9 (V3-16), unsigned, masked, cycle phase 0. -/
theorem simple_handlers_zero_lane3_witness :
    ((9 : Nat) = 4 ∨ (9 : Nat) = 8 ∨ (9 : Nat) = 9 ∨ (9 : Nat) = 10) ∧
    sampleBuild.nVifT 9 ≠ 0 ∧
    ((VifUnpackNEON_Simple.ctor (1 != 0) (1 != 0) 0).UnpkLoopIteration = 0 ∧
    (VifUnpackNEON_Simple.ctor (1 != 0) (1 != 0) 0).IsAligned = 1 ∧
    ((0 / 4 + 1 + (4 - 1)) &&& 3 = 0) ∧
    (VifUnpackNEON_Simple.ctor (1 != 0) (1 != 0) 0).toVifUnpackNEON_Base.V3_16_result = 0 ∧
    ((nVifGen sampleBuild 1 1 0 sampleRec).nVifUpk (nVifIndex 1 1 9 0),
      nVifGenBlock sampleBuild (VifUnpackNEON_Simple.ctor (1 != 0) (1 != 0) 0) 9) ∈
        (nVifGen sampleBuild 1 1 0 sampleRec).blocks ∧
    nVifGenBlock sampleBuild (VifUnpackNEON_Simple.ctor (1 != 0) (1 != 0) 0) 9 =
      (VifUnpackNEON_Simple.ctor (1 != 0) (1 != 0) 0).toVifUnpackNEON_Base.xUnpack
          sampleBuild.a64 9 ++
        (VifUnpackNEON_Simple.ctor (1 != 0) (1 != 0) 0).xMovDest sampleBuild.a64
            sampleBuild.nVifMask ++
        [.Ret] ∧
    zeroLane3 ∈
      (VifUnpackNEON_Simple.ctor (1 != 0) (1 != 0) 0).toVifUnpackNEON_Base.xUnpack
        sampleBuild.a64 9 ∧
    ∀ s : Machine, ∃ s1,
      run ((VifUnpackNEON_Simple.ctor (1 != 0) (1 != 0) 0).toVifUnpackNEON_Base.xUnpack
        sampleBuild.a64 9) s = some s1 ∧ (s1.q destReg).lane 3 = 0) :=
  ⟨by decide, by decide,
    simple_handlers_zero_lane3 sampleBuild 1 1 0 sampleRec 9 (by decide) (by decide)⟩

/-! ## The build pass as a trace -/

theorem nVifGen_keep_high (B : Build) (u m c : Nat) (hu : u < 2) (hm : m < 2) (hc : c < 4)
    (st : RecState) (k : Nat) (hk : 256 ≤ k) :
    (nVifGen B u m c st).nVifUpk k = st.nVifUpk k := by
  unfold nVifGen
  rw [(foldl_nVifGenStep_keep B u m c _ (List.range 16) _).2 k]
  intro i hi e
  have hi' := List.mem_range.mp hi
  rw [e] at hk
  unfold nVifIndex at hk
  omega

theorem foldl_nVifGen_keep_high (B : Build) (l : List (Nat × Nat × Nat))
    (hl : ∀ t ∈ l, t.1 < 2 ∧ t.2.1 < 2 ∧ t.2.2 < 4) (k : Nat) (hk : 256 ≤ k) :
    ∀ st : RecState,
      (l.foldl (fun s t => nVifGen B t.1 t.2.1 t.2.2 s) st).nVifUpk k = st.nVifUpk k := by
  induction l with
  | nil => intro st; rfl
  | cons a l ih =>
    intro st
    obtain ⟨h1, h2, h3⟩ := hl a (by simp)
    rw [List.foldl_cons, ih (fun t ht => hl t (by simp [ht])),
      nVifGen_keep_high B _ _ _ h1 h2 h3 st k hk]

theorem VifUnpackSSE_Init_keep_high (B : Build) (st : RecState) (k : Nat) (hk : 256 ≤ k) :
    (VifUnpackSSE_Init B st).nVifUpk k = st.nVifUpk k := by
  rw [VifUnpackSSE_Init_calls, foldl_nVifGen_keep_high B initCalls (by decide) k hk]

theorem nVifGenStep_trace (B : Build) (u m c : Nat) (g : VifUnpackNEON_Simple)
    (st : RecState) (i : Nat) :
    ∃ t, (nVifGenStep B u m c g st i).trace = st.trace ++ t ∧
      ∀ e ∈ t, e.isBlockEvent = true := by
  unfold nVifGenStep
  by_cases hT : B.nVifT i = 0
  · exact ⟨[], by simp [hT], by simp⟩
  · refine ⟨[.armStartBlock st.armAsmPtr] ++ (nVifGenBlock B g i).map .emit ++ [.armEndBlock],
      by simp [hT], ?_⟩
    intro e he
    simp only [List.mem_append, List.mem_singleton, List.mem_map] at he
    rcases he with (rfl | ⟨ins, _, rfl⟩) | rfl <;> rfl

theorem foldl_nVifGenStep_trace (B : Build) (u m c : Nat) (g : VifUnpackNEON_Simple)
    (l : List Nat) :
    ∀ st : RecState, ∃ t, (l.foldl (nVifGenStep B u m c g) st).trace = st.trace ++ t ∧
      ∀ e ∈ t, e.isBlockEvent = true := by
  induction l with
  | nil => intro st; exact ⟨[], by simp, by simp⟩
  | cons a l ih =>
    intro st
    obtain ⟨t1, h1, p1⟩ := nVifGenStep_trace B u m c g st a
    obtain ⟨t2, h2, p2⟩ := ih (nVifGenStep B u m c g st a)
    refine ⟨t1 ++ t2, by rw [List.foldl_cons, h2, h1, List.append_assoc], ?_⟩
    intro e he
    rcases List.mem_append.mp he with h | h
    · exact p1 e h
    · exact p2 e h

theorem nVifGen_trace (B : Build) (u m c : Nat) (st : RecState) :
    ∃ t, (nVifGen B u m c st).trace = st.trace ++ (.nVifGenCall u m c :: t) ∧
      ∀ e ∈ t, e.isBlockEvent = true := by
  obtain ⟨t, h, p⟩ := foldl_nVifGenStep_trace B u m c
    (VifUnpackNEON_Simple.ctor (u != 0) (m != 0) c) (List.range 16)
    { st with trace := st.trace ++ [.nVifGenCall u m c] }
  exact ⟨t, by rw [nVifGen, h]; simp, p⟩

theorem filter_isCall_block (t : List Event) (p : ∀ e ∈ t, e.isBlockEvent = true) :
    t.filter Event.isCall = [] := by
  rw [List.filter_eq_nil_iff]
  intro e he
  have := p e he
  cases e <;> simp [Event.isBlockEvent, Event.isCall] at this ⊢

theorem foldl_nVifGen_trace (B : Build) (l : List (Nat × Nat × Nat)) :
    ∀ st : RecState, ∃ t,
      (l.foldl (fun s t => nVifGen B t.1 t.2.1 t.2.2 s) st).trace = st.trace ++ t ∧
      (∀ e ∈ t, e.isCall = true ∨ e.isBlockEvent = true) ∧
      t.filter Event.isCall = l.map (fun t => Event.nVifGenCall t.1 t.2.1 t.2.2) := by
  induction l with
  | nil => intro st; exact ⟨[], by simp, by simp, by simp⟩
  | cons a l ih =>
    intro st
    obtain ⟨t1, h1, p1⟩ := nVifGen_trace B a.1 a.2.1 a.2.2 st
    obtain ⟨t2, h2, p2, f2⟩ := ih (nVifGen B a.1 a.2.1 a.2.2 st)
    refine ⟨(.nVifGenCall a.1 a.2.1 a.2.2 :: t1) ++ t2,
      by rw [List.foldl_cons, h2, h1, List.append_assoc], ?_, ?_⟩
    · intro e he
      rcases List.mem_append.mp he with h | h
      · rcases List.mem_cons.mp h with rfl | h
        · exact Or.inl rfl
        · exact Or.inr (p1 e h)
      · exact p2 e h
    · rw [List.filter_append, f2, List.filter_cons]
      simp [Event.isCall, filter_isCall_block t1 p1]

theorem bracket_split (A mid C pre post : List Event) (e : Event)
    (h : A ++ mid ++ C = pre ++ e :: post) (hA : e ∉ A) (hC : e ∉ C) :
    ∃ m1 m2, pre = A ++ m1 ∧ post = m2 ++ C := by
  rw [List.append_assoc, List.append_eq_append_iff] at h
  rcases h with ⟨a', hpre, h⟩ | ⟨c', hA', h⟩
  · rw [List.append_eq_append_iff] at h
    rcases h with ⟨b', _, h⟩ | ⟨c', _, h⟩
    · exact absurd (by rw [h]; simp) hC
    · cases c' with
      | nil => exact absurd (by rw [← List.nil_append C, ← h]; simp) hC
      | cons x c'' =>
        rw [List.cons_append, List.cons.injEq] at h
        exact ⟨a', c'', hpre, h.2⟩
  · cases c' with
    | nil =>
      rw [List.nil_append] at h
      rw [List.append_nil] at hA'
      cases mid with
      | nil => exact absurd (by rw [← List.nil_append C, ← h]; simp) hC
      | cons x mid' =>
        rw [List.cons_append, List.cons.injEq] at h
        exact ⟨[], mid', by simp [hA'], h.2⟩
    | cons x c'' =>
      rw [List.cons_append, List.cons.injEq] at h
      exact absurd (by rw [hA', h.1]; simp) hA

theorem VifUnpackSSE_Init_trace (B : Build) (st : RecState) :
    ∃ mid, (VifUnpackSSE_Init B st).trace =
        st.trace ++
          ([.devConWriteLn, .beginCodeWrite,
              .armSetAsmPtr B.recStart (B.recEnd - B.recStart)] ++ mid ++
            [.perfRegister B.recStart ((VifUnpackSSE_Init B st).armAsmPtr - B.recStart),
              .endCodeWrite]) ∧
      (∀ e ∈ mid, e.isCall = true ∨ e.isBlockEvent = true) ∧
      mid.filter Event.isCall = initCalls.map (fun t => Event.nVifGenCall t.1 t.2.1 t.2.2) := by
  obtain ⟨mid, h, p, f⟩ := foldl_nVifGen_trace B initCalls
    { st with
      armAsmPtr := B.recStart
      trace := st.trace ++
        [.devConWriteLn, .beginCodeWrite,
          .armSetAsmPtr B.recStart (B.recEnd - B.recStart)] }
  refine ⟨mid, ?_, p, f⟩
  show (initCalls.foldl (fun s t => nVifGen B t.1 t.2.1 t.2.2 s) _).trace ++ _ = _
  rw [h]
  simp only [List.append_assoc]
  rfl

/-- C14: in the steps that `VifUnpackSSE_Init` appends to the trace,
`beginCodeWrite` and `endCodeWrite` each occur exactly once; every
instruction emission and every call of `nVifGen` has `beginCodeWrite` before
it and `endCodeWrite` after it; and the calls of `nVifGen` are the 16 calls
with signedness outermost, mask next and cycle phase innermost. -/
theorem VifUnpackSSE_Init_bracket (B : Build) (st : RecState) :
    ∃ new, (VifUnpackSSE_Init B st).trace = st.trace ++ new ∧
      new.count .beginCodeWrite = 1 ∧
      new.count .endCodeWrite = 1 ∧
      (∀ pre post e, new = pre ++ e :: post → (e.isEmit = true ∨ e.isCall = true) →
        .beginCodeWrite ∈ pre ∧ .endCodeWrite ∈ post) ∧
      new.filter Event.isCall =
        [.nVifGenCall 0 0 0, .nVifGenCall 0 0 1, .nVifGenCall 0 0 2, .nVifGenCall 0 0 3,
         .nVifGenCall 0 1 0, .nVifGenCall 0 1 1, .nVifGenCall 0 1 2, .nVifGenCall 0 1 3,
         .nVifGenCall 1 0 0, .nVifGenCall 1 0 1, .nVifGenCall 1 0 2, .nVifGenCall 1 0 3,
         .nVifGenCall 1 1 0, .nVifGenCall 1 1 1, .nVifGenCall 1 1 2, .nVifGenCall 1 1 3] := by
  obtain ⟨mid, h, p, f⟩ := VifUnpackSSE_Init_trace B st
  have hb : mid.count .beginCodeWrite = 0 := by
    rw [List.count_eq_zero]
    intro hm
    rcases p _ hm with h | h <;> simp [Event.isCall, Event.isBlockEvent] at h
  have he : mid.count .endCodeWrite = 0 := by
    rw [List.count_eq_zero]
    intro hm
    rcases p _ hm with h | h <;> simp [Event.isCall, Event.isBlockEvent] at h
  refine ⟨_, h, ?_, ?_, ?_, ?_⟩
  · simp [List.count_append, hb, List.count_cons]
  · simp [List.count_append, he, List.count_cons]
  · intro pre post e hsplit hk
    obtain ⟨m1, m2, hpre, hpost⟩ := bracket_split _ mid _ pre post e hsplit
      (by rcases hk with hk | hk <;> intro hm <;> simp at hm <;>
            rcases hm with rfl | rfl | rfl <;> simp [Event.isEmit, Event.isCall] at hk)
      (by rcases hk with hk | hk <;> intro hm <;> simp at hm <;>
            rcases hm with rfl | rfl <;> simp [Event.isEmit, Event.isCall] at hk)
    rw [hpre, hpost]
    simp
  · simp only [List.filter_append, f]
    simp [Event.isCall, initCalls]

/-! ## The table index -/

set_option maxRecDepth 1000000 in
theorem initSlots_count_all :
    (List.range 256).all (fun k => initSlots.count k == 1) = true := by
  rfl

theorem initSlots_count (k : Nat) (hk : k < 256) : initSlots.count k = 1 := by
  have h := List.all_eq_true.mp initSlots_count_all k (List.mem_range.mpr hk)
  simpa using h

set_option maxRecDepth 100000 in
theorem initSlots_length : initSlots.length = 256 := by rfl

theorem nVifGenStep_writes (B : Build) (u m c : Nat) (g : VifUnpackNEON_Simple)
    (st : RecState) (i : Nat) :
    (nVifGenStep B u m c g st i).nVifUpk (nVifIndex u m i c) =
      if B.nVifT i = 0 then 0 else st.armAsmPtr := by
  unfold nVifGenStep
  by_cases hT : B.nVifT i = 0 <;> simp [hT, setEntry]

/-- C15: the index `((usn*32 + mask*16 + i)*4) + curCycle` of `nVifGen` maps the
key space `usn, mask < 2`, `i < 16`, `curCycle < 4` one-to-one onto 0..255.
The build pass is the loop nest over these keys, each iteration assigns its
own slot and no other, so every slot below 256 is assigned by exactly one
iteration and no slot from 256 on is touched. -/
theorem nVifIndex_bijection (B : Build) (st : RecState) :
    (∀ usn mask i curCycle, usn < 2 → mask < 2 → i < 16 → curCycle < 4 →
      nVifIndex usn mask i curCycle < 256) ∧
    (∀ u m i c u' m' i' c', u < 2 → m < 2 → i < 16 → c < 4 → u' < 2 → m' < 2 → i' < 16 →
      c' < 4 → nVifIndex u m i c = nVifIndex u' m' i' c' → u = u' ∧ m = m' ∧ i = i' ∧ c = c') ∧
    (∀ k, k < 256 → ∃ u m i c, u < 2 ∧ m < 2 ∧ i < 16 ∧ c < 4 ∧ nVifIndex u m i c = k) ∧
    (VifUnpackSSE_Init B st).nVifUpk =
      (initCalls.foldl
        (fun s t =>
          (List.range 16).foldl
            (nVifGenStep B t.1 t.2.1 t.2.2
              (VifUnpackNEON_Simple.ctor (t.1 != 0) (t.2.1 != 0) t.2.2))
            { s with trace := s.trace ++ [.nVifGenCall t.1 t.2.1 t.2.2] })
        { st with
          armAsmPtr := B.recStart
          trace := st.trace ++
            [.devConWriteLn, .beginCodeWrite,
              .armSetAsmPtr B.recStart (B.recEnd - B.recStart)] }).nVifUpk ∧
    (∀ u m c g s i,
      (nVifGenStep B u m c g s i).nVifUpk (nVifIndex u m i c) =
        (if B.nVifT i = 0 then 0 else s.armAsmPtr) ∧
      ∀ k, k ≠ nVifIndex u m i c → (nVifGenStep B u m c g s i).nVifUpk k = s.nVifUpk k) ∧
    initSlots.length = 256 ∧
    (∀ k, k < 256 → initSlots.count k = 1) ∧
    (∀ k, 256 ≤ k → (VifUnpackSSE_Init B st).nVifUpk k = st.nVifUpk k) := by
  refine ⟨?_, ?_, ?_, rfl, ?_, initSlots_length, initSlots_count, ?_⟩
  · intro u m i c hu hm hi hc
    unfold nVifIndex; omega
  · intro u m i c u' m' i' c' hu hm hi hc hu' hm' hi' hc' h
    unfold nVifIndex at h; omega
  · intro k hk
    refine ⟨k / 128, k / 64 % 2, k / 4 % 16, k % 4, ?_, ?_, ?_, ?_, ?_⟩
    · omega
    · omega
    · omega
    · omega
    · unfold nVifIndex; omega
  · intro u m c g s i
    exact ⟨nVifGenStep_writes B u m c g s i, (nVifGenStep_keep B u m c g s i).2⟩
  · exact VifUnpackSSE_Init_keep_high B st

end VifUnpackNEON
